import Mathlib

set_option maxRecDepth 100000

/-
Verification development for the question-paper / textbook-chapter mapping
pipeline (ai_service.py and question_parser.py).  Text is modelled as
List Char; the regular-expression based scanning of the source is embedded
by dedicated character-level scanners, one per pattern, that mirror the
semantics of the Python patterns (greedy and lazy repetition, anchors,
scanning order of finditer) on the ASCII fragment the pipeline works on.
Page numbers are modelled as Int (Python int), similarity scores as Rat.
-/

-- ===== basic text utilities (Python str semantics on lists of chars) =====

/-- Characters Python's regex class backslash-s and str.strip treat as space
(ASCII fragment). -/
def pySpace (c : Char) : Bool :=
  c = ' ' || c = '\t' || c = '\n' || c = '\r' || c = '\x0b' || c = '\x0c'

/-- ASCII word character, the regex class backslash-w fragment used here. -/
def wordChar (c : Char) : Bool :=
  c.isAlpha || c.isDigit || c = '_'

/-- Python str.strip on a character list. -/
def pyStrip (l : List Char) : List Char :=
  ((l.dropWhile pySpace).reverse.dropWhile pySpace).reverse

/-- Python str.lower on the ASCII fragment. -/
def toLowerL (l : List Char) : List Char := l.map Char.toLower

/-- Python str.split on a newline: never returns an empty list. -/
def splitNl : List Char → List (List Char)
  | [] => [[]]
  | c :: rest =>
    let r := splitNl rest
    if c = '\n' then [] :: r
    else
      match r with
      | h :: t => (c :: h) :: t
      | [] => [[c]]

/-- Left inverse of splitNl: join with newline characters. -/
def joinNl : List (List Char) → List Char
  | [] => []
  | [l] => l
  | l :: rest => l ++ '\n' :: joinNl rest

/-- Join with a single blank, Python " ".join. -/
def joinSpace : List (List Char) → List Char
  | [] => []
  | [l] => l
  | l :: rest => l ++ ' ' :: joinSpace rest

/-- Whether the pattern list occurs at the start of the text list. -/
def listStartsWith : List Char → List Char → Bool
  | [], _ => true
  | _ :: _, [] => false
  | p :: ps, c :: cs => p = c && listStartsWith ps cs

/-- Python substring containment, pat in txt. -/
def containsL (pat : List Char) : List Char → Bool
  | [] => listStartsWith pat []
  | t@(_ :: rest) => listStartsWith pat t || containsL pat rest

/-- Case-insensitive variant of listStartsWith. -/
def listStartsWithCI : List Char → List Char → Bool
  | [], _ => true
  | _ :: _, [] => false
  | p :: ps, c :: cs => p.toLower = c.toLower && listStartsWithCI ps cs

/-- Case-insensitive substring containment. -/
def containsCI (pat : List Char) : List Char → Bool
  | [] => listStartsWithCI pat []
  | t@(_ :: rest) => listStartsWithCI pat t || containsCI pat rest

/-- Python slicing txt[a:b] for 0 <= a, b. -/
def sliceL (t : List Char) (a b : Nat) : List Char := (t.take b).drop a

/-- Numeric value of a digit list. -/
def digitsToNat (l : List Char) : Nat :=
  l.foldl (fun acc c => acc * 10 + (c.toNat - '0'.toNat)) 0

/-- Decimal digit characters of a number, as matched by an interpolated
f-string pattern. -/
def natDigits (n : Nat) : List Char := (toString n).toList

/-- Greedy run of regex backslash-s characters: length taken and rest. -/
def munchSpaces : List Char → Nat × List Char
  | [] => (0, [])
  | c :: rest =>
    if pySpace c then
      let (n, r) := munchSpaces rest
      (n + 1, r)
    else (0, c :: rest)

/-- Greedy run of digits: consumed count, digit chars, rest; none if the
first char is not a digit (regex digit-plus). -/
def munchDigits : List Char → Option (Nat × List Char × List Char)
  | [] => none
  | c :: rest =>
    if c.isDigit then
      match munchDigits rest with
      | some (n, ds, r) => some (n + 1, c :: ds, r)
      | none => some (1, [c], rest)
    else none

/-- Greedy run of characters satisfying p: count and rest. -/
def munchWhile (p : Char → Bool) : List Char → Nat × List Char
  | [] => (0, [])
  | c :: rest =>
    if p c then
      let (n, r) := munchWhile p rest
      (n + 1, r)
    else (0, c :: rest)

/-- Collapse every run of whitespace to one blank (regex sub of
backslash-s-plus with a blank), as a structural state machine: the flag
records whether the previous character was whitespace. -/
def collapseWsGo (prevSpace : Bool) : List Char → List Char
  | [] => []
  | c :: rest =>
    if pySpace c then
      if prevSpace then collapseWsGo true rest
      else ' ' :: collapseWsGo true rest
    else c :: collapseWsGo false rest

/-- Collapse every whitespace run to one blank. -/
def collapseWs (l : List Char) : List Char := collapseWsGo false l

/-- Replace newline by blank, Python str.replace. -/
def replaceNlBySpace (l : List Char) : List Char :=
  l.map (fun c => if c = '\n' then ' ' else c)

-- a quick sanity example exercised while building (kept as documentation)
example : pyStrip (" ab c \n".toList) = "ab c".toList := by decide
example : splitNl ("a\nb".toList) = ["a".toList, "b".toList] := by decide
example : containsCI ("AND".toList) ("sandwich".toList) = true := by decide

-- ===== generic finditer-style scanning =====

/-- One finditer result: start position, consumed length, payload.  The
scanner walks the text once, tries the pattern at each position and resumes
after the end of every non-overlapping match, exactly like re.finditer. -/
def scanWithPrev {α : Type} (tryAt : Option Char → List Char → Option (Nat × α)) :
    Nat → Option Char → Nat → List Char → List (Nat × Nat × α)
  | 0, _, _, _ => []
  | _ + 1, _, _, [] => []
  | fuel + 1, prev, pos, l =>
    match l with
    | [] => []
    | c :: rest =>
      match tryAt prev l with
      | some (consumed, a) =>
        let step := max consumed 1
        (pos, consumed, a) ::
          scanWithPrev tryAt fuel ((l.take step).getLast?) (pos + step) (l.drop step)
      | none => scanWithPrev tryAt fuel (some c) (pos + 1) rest

/-- Run a scanner over a whole text from position 0 (no preceding char). -/
def scanAll {α : Type} (tryAt : Option Char → List Char → Option (Nat × α))
    (t : List Char) : List (Nat × Nat × α) :=
  scanWithPrev tryAt (t.length + 1) none 0 t

/-- The zero-width branch of a pattern group opening with caret-or-newline
under re.MULTILINE: true when the scan position is at the text start or
right after a newline. -/
def atLineStart (prev : Option Char) : Bool :=
  match prev with
  | none => true
  | some c => c = '\n'

-- ===== ai_service.extract_sub_parts: sub-part/option scanners =====

/-- One match of a sub-part pattern: match start, group 1 (the marker
label) and group 2 (the raw captured span, before strip). -/
structure SpMatch where
  sstart : Nat
  label : List Char
  span : List Char
deriving DecidableEq

/-- Characters of the roman-numeral class of the source patterns,
case-insensitive (re.IGNORECASE is set). -/
def romanChar (c : Char) : Bool :=
  let d := c.toLower
  d = 'i' || d = 'v' || d = 'x' || d = 'l' || d = 'c' || d = 'd' || d = 'm'

/-- Lazy dot-plus capture with a lookahead: consume at least one char,
then stop at the first position where the lookahead holds or at the end
of the text (backslash-Z).  Returns the captured span. -/
def lazySpanGo (isMarker : List Char → Bool) (acc : List Char) :
    List Char → List Char
  | [] => acc.reverse
  | rem@(r :: rs) =>
    if isMarker rem then acc.reverse else lazySpanGo isMarker (r :: acc) rs

/-- Start the lazy span (dot-plus needs one char). -/
def lazySpanFrom (isMarker : List Char → Bool) : List Char → Option (List Char)
  | [] => none
  | c :: rest => some (lazySpanGo isMarker [c] rest)

/-- Shared body of the four sub-part patterns after their marker: greedy
whitespace, then a lazy span bounded by the pattern's lookahead.  When the
text ends inside the whitespace run the greedy star backtracks one step and
the span is that last whitespace character. -/
def spBody (isMarker : List Char → Bool) (label : List Char) (mlen : Nat)
    (afterMarker : List Char) : Option (Nat × List Char × List Char) :=
  let (wsn, afterWs) := munchSpaces afterMarker
  match lazySpanFrom isMarker afterWs with
  | some span => some (mlen + wsn + span.length, label, span)
  | none =>
    match (afterMarker.take wsn).getLast? with
    | some c => some (mlen + wsn, label, [c])
    | none => none

/-- Marker of the lookahead of the parenthesised-letter pattern. -/
def letterParenMarker : List Char → Bool
  | '(' :: c :: ')' :: _ => c.isAlpha
  | _ => false

/-- Marker of the lookahead of the parenthesised-roman pattern: an open
paren, a nonempty roman run, a close paren. -/
def romanParenMarker (l : List Char) : Bool :=
  match l with
  | '(' :: rest =>
    let (n, r) := munchWhile romanChar rest
    decide (1 ≤ n) && (match r with | ')' :: _ => true | _ => false)
  | _ => false

/-- Pattern of parenthesised letters; group 1 is the letter. -/
def spTry1 (_prev : Option Char) (l : List Char) :
    Option (Nat × List Char × List Char) :=
  match l with
  | '(' :: c :: ')' :: rest =>
    if c.isAlpha then spBody letterParenMarker [c] 3 rest else none
  | _ => none

/-- Pattern of parenthesised roman numerals; group 1 is the roman run. -/
def spTry2 (_prev : Option Char) (l : List Char) :
    Option (Nat × List Char × List Char) :=
  match l with
  | '(' :: rest =>
    let (n, r) := munchWhile romanChar rest
    if 1 ≤ n then
      match r with
      | ')' :: afterMarker =>
        spBody romanParenMarker (rest.take n) (n + 2) afterMarker
      | _ => none
    else none
  | _ => none

/-- Lookahead of the line-anchored letter pattern: newline, letter, close
paren. -/
def letterNlMarker : List Char → Bool
  | '\n' :: c :: ')' :: _ => c.isAlpha
  | _ => false

/-- Lookahead of the line-anchored roman pattern. -/
def romanNlMarker (l : List Char) : Bool :=
  match l with
  | '\n' :: rest =>
    let (n, r) := munchWhile romanChar rest
    decide (1 ≤ n) && (match r with | ')' :: _ => true | _ => false)
  | _ => false

/-- Line-anchored letter pattern: caret-or-newline, letter, close paren.
The caret branch is tried first, the newline-consuming branch second. -/
def spTry3 (prev : Option Char) (l : List Char) :
    Option (Nat × List Char × List Char) :=
  let body : List Char → Nat → Option (Nat × List Char × List Char) :=
    fun s extra =>
      match s with
      | c :: ')' :: rest =>
        if c.isAlpha then
          (spBody letterNlMarker [c] 2 rest).map
            (fun r => (extra + r.1, r.2))
        else none
      | _ => none
  match (if atLineStart prev then body l 0 else none) with
  | some r => some r
  | none =>
    match l with
    | '\n' :: rest => body rest 1
    | _ => none

/-- Line-anchored roman pattern. -/
def spTry4 (prev : Option Char) (l : List Char) :
    Option (Nat × List Char × List Char) :=
  let body : List Char → Nat → Option (Nat × List Char × List Char) :=
    fun s extra =>
      let (n, r) := munchWhile romanChar s
      if 1 ≤ n then
        match r with
        | ')' :: rest =>
          (spBody romanNlMarker (s.take n) (n + 1) rest).map
            (fun q => (extra + q.1, q.2))
        | _ => none
      else none
  match (if atLineStart prev then body l 0 else none) with
  | some r => some r
  | none =>
    match l with
    | '\n' :: rest => body rest 1
    | _ => none

/-- All matches of one sub-part pattern over a text, as SpMatch records. -/
def spFindAll (tryAt : Option Char → List Char → Option (Nat × List Char × List Char))
    (t : List Char) : List SpMatch :=
  (scanAll (fun prev l => (tryAt prev l).map (fun r => (r.1, r.2))) t).map
    (fun e => ⟨e.1, e.2.2.1, e.2.2.2⟩)

def sub_part_scan1 (t : List Char) : List SpMatch := spFindAll spTry1 t
def sub_part_scan2 (t : List Char) : List SpMatch := spFindAll spTry2 t
def sub_part_scan3 (t : List Char) : List SpMatch := spFindAll spTry3 t
def sub_part_scan4 (t : List Char) : List SpMatch := spFindAll spTry4 t

-- ===== ai_service question records and helpers =====

/-- A question dict produced by ai_service.detect_questions.  Main
questions carry no has_diagram key; sub-part questions carry one, so the
field is an Option. -/
structure PyQuestion where
  question_number : List Char
  question_text : List Char
  position : Nat
  has_diagram : Option Bool
deriving DecidableEq

/-- ai_service.clean_question_text: newline to blank, whitespace collapse,
truncation to 2000 chars, strip. -/
def clean_question_text (t : List Char) : List Char :=
  pyStrip ((collapseWs (replaceNlBySpace t)).take 2000)

/-- ai_service.detect_diagram_reference: keyword containment over the
lowercased text. -/
def detect_diagram_reference (t : List Char) : Bool :=
  let lower := toLowerL t
  [("diagram".toList), ("figure".toList), ("graph".toList), ("chart".toList),
   ("image".toList), ("picture".toList), ("illustration".toList),
   ("shown".toList), ("given below".toList), ("above".toList),
   ("following figure".toList), ("circuit".toList), ("table".toList),
   ("map".toList), ("drawing".toList)].any (fun k => containsL k lower)

/-- ai_service.is_mcq_options.  The source computes avg = sum(lengths) /
len(matches) and tests avg < 100, abs(l - avg) < avg * 0.5 and avg < 80 in
float arithmetic.  On these small integer lengths the comparisons are
exact, and the embedding states them with denominators cleared (the number
of matches is positive): avg < k iff sum < k * n, and
abs(l - avg) < avg * 0.5 iff 2 * abs(n * l - sum) < sum. -/
def is_mcq_options (ms : List SpMatch) : Bool :=
  match ms with
  | [] => false
  | [_] => false
  | m0 :: _ :: _ =>
    let lengths : List Nat := ms.map (fun m => (pyStrip m.span).length)
    let n := ms.length
    let s := lengths.sum
    let similar := lengths.all (fun l => 2 * (((l * n : Nat) : Int) - (s : Int)).natAbs < s)
    if (decide (s < 100 * n)) && (n == 4) && similar then
      true
    else
      let first_text := toLowerL (pyStrip m0.span)
      let indicators := [("both".toList), ("none".toList),
        ("all of the above".toList), ("none of the above".toList),
        ("only".toList), ("and".toList), ("or".toList), ("neither".toList)]
      indicators.any (fun i => containsL i first_text) && decide (s < 80 * n)

/-- The per-match construction step of ai_service.extract_sub_parts, after
a pattern has produced at least two non-option matches. -/
def build_sub_questions (main_q_num : List Char) (q_text : List Char)
    (ms : List SpMatch) : List PyQuestion :=
  match ms with
  | [] => []
  | m0 :: _ =>
    let intro_text := pyStrip (q_text.take m0.sstart)
    let hd := detect_diagram_reference intro_text
    ms.filterMap (fun m =>
      let sub_label := toLowerL m.label
      let sub_text := collapseWs (replaceNlBySpace (pyStrip m.span))
      let core := '(' :: (sub_label ++ ')' :: ' ' :: sub_text)
      let full0 :=
        if 10 < intro_text.length then intro_text ++ ' ' :: core else core
      let full1 :=
        if hd then ("[Contains diagram/figure] ".toList) ++ full0 else full0
      let full2 := full1.take 2500
      if 15 < full2.length then
        some ⟨main_q_num ++ sub_label, full2, 0, some hd⟩
      else none)

/-- The ordered pattern cascade of ai_service.extract_sub_parts: the first
pattern with at least two matches that are not classified as MCQ options
wins; an option-classified pattern falls through to the next pattern. -/
def extract_sub_parts_go (main_q_num q_text : List Char) :
    List (List Char → List SpMatch) → List PyQuestion
  | [] => []
  | scan :: rest =>
    let ms := scan q_text
    if 2 ≤ ms.length then
      if is_mcq_options ms then extract_sub_parts_go main_q_num q_text rest
      else build_sub_questions main_q_num q_text ms
    else extract_sub_parts_go main_q_num q_text rest

/-- ai_service.extract_sub_parts over its four patterns in source order. -/
def extract_sub_parts (main_q_num q_text : List Char) : List PyQuestion :=
  extract_sub_parts_go main_q_num q_text
    [sub_part_scan1, sub_part_scan2, sub_part_scan3, sub_part_scan4]

-- sanity examples from the construction of the embedding
example :
    (sub_part_scan1 ("(a) Red (b) Blue (c) Green (d) Yellow".toList)).map
      SpMatch.span =
    [("Red ".toList), ("Blue ".toList), ("Green ".toList),
     ("Yellow".toList)] := by decide
example :
    is_mcq_options (sub_part_scan1 ("(a) Red (b) Blue (c) Green (d) Yellow".toList)) =
      true := by decide
example :
    (sub_part_scan2 ("(a) Red (b) Blue (c) Green (d) Yellow".toList)).map
      SpMatch.label = [['c'], ['d']] := by decide

-- ===== ai_service.detect_questions =====

/-- A match of a question-start pattern of detect_questions: match start,
group 1 (the number, kept as the matched digit characters, exactly as the
source keeps the string), group 2 (the raw span). -/
structure QnMatch where
  qstart : Nat
  qnum : List Char
  span : List Char
deriving DecidableEq

/-- Shared body after a pattern's separator position: a greedy separator
run of at least minSep characters, then the lazy dot-plus span bounded by
the pattern's lookahead.  When the text ends inside the separator run the
greedy quantifier backtracks one step so the span is the last separator
character (needs one more than minSep). -/
def qBodySep (isMarker : List Char → Bool) (sepP : Char → Bool) (minSep : Nat)
    (afterNum : List Char) : Option (Nat × List Char) :=
  let (sn, afterSep) := munchWhile sepP afterNum
  if sn < minSep then none
  else
    match lazySpanFrom isMarker afterSep with
    | some span => some (sn + span.length, span)
    | none =>
      if minSep + 1 ≤ sn then
        match (afterNum.take sn).getLast? with
        | some c => some (sn, [c])
        | none => none
      else none

/-- Lookahead of the main pattern: newline, digits, dot, whitespace. -/
def mainMarkerQ : List Char → Bool
  | '\n' :: rest =>
    match munchDigits rest with
    | some (_, _, '.' :: r2) =>
      match r2 with
      | c :: _ => pySpace c
      | [] => false
    | _ => false
  | _ => false

/-- Body of the main question pattern after the caret-or-newline group:
digits, a dot, whitespace, lazy span. -/
def mainBody (l : List Char) : Option (Nat × List Char × List Char) :=
  match munchDigits l with
  | some (dn, ds, '.' :: rest) =>
    (qBodySep mainMarkerQ pySpace 1 rest).map
      (fun r => (dn + 1 + r.1, ds, r.2))
  | _ => none

/-- A branch pair for patterns opening with the caret-or-newline group:
the caret branch is tried first, the newline-consuming branch second. -/
def withLineAnchor (body : List Char → Option (Nat × List Char × List Char))
    (prev : Option Char) (l : List Char) : Option (Nat × List Char × List Char) :=
  match (if atLineStart prev then body l else none) with
  | some r => some r
  | none =>
    match l with
    | '\n' :: rest => (body rest).map (fun r => (r.1 + 1, r.2))
    | _ => none

/-- All matches of a question pattern given its anchored body. -/
def qnFindAll (body : List Char → Option (Nat × List Char × List Char))
    (t : List Char) : List QnMatch :=
  (scanAll (fun prev l => (withLineAnchor body prev l).map (fun r => (r.1, r.2))) t).map
    (fun e => ⟨e.1, e.2.2.1, e.2.2.2⟩)

/-- detect_questions main pattern. -/
def mainFindAll (t : List Char) : List QnMatch := qnFindAll mainBody t

/-- Lookahead of the first alternative pattern: newline, digits, close
paren, whitespace. -/
def alt1Marker : List Char → Bool
  | '\n' :: rest =>
    match munchDigits rest with
    | some (_, _, ')' :: r2) =>
      match r2 with
      | c :: _ => pySpace c
      | [] => false
    | _ => false
  | _ => false

/-- Body of the first alternative pattern: digits, close paren,
whitespace, lazy span. -/
def alt1Body (l : List Char) : Option (Nat × List Char × List Char) :=
  match munchDigits l with
  | some (dn, ds, ')' :: rest) =>
    (qBodySep alt1Marker pySpace 1 rest).map
      (fun r => (dn + 1 + r.1, ds, r.2))
  | _ => none

/-- Lookahead of the second alternative pattern: newline, Q, optional dot,
whitespace star, digits. -/
def alt2Marker : List Char → Bool
  | '\n' :: 'Q' :: rest =>
    let tryFrom : List Char → Bool := fun s =>
      let (_, afterWs) := munchSpaces s
      (munchDigits afterWs).isSome
    (match rest with
     | '.' :: r2 => tryFrom r2
     | _ => false) ||
    tryFrom rest
  | _ => false

/-- Separator class of the second alternative pattern: colon, dot or
whitespace. -/
def qdotSep (c : Char) : Bool := c = ':' || c = '.' || pySpace c

/-- Body of the second alternative pattern: Q, optional dot, whitespace
star, digits, separator class, lazy span. -/
def alt2Body (l : List Char) : Option (Nat × List Char × List Char) :=
  match l with
  | 'Q' :: rest =>
    let fromDot : List Char → Nat → Option (Nat × List Char × List Char) :=
      fun s pre =>
        let (wn, afterWs) := munchSpaces s
        match munchDigits afterWs with
        | some (dn, ds, afterDigits) =>
          (qBodySep alt2Marker qdotSep 1 afterDigits).map
            (fun r => (1 + pre + wn + dn + r.1, ds, r.2))
        | none => none
    (match rest with
     | '.' :: r2 =>
       match fromDot r2 1 with
       | some r => some r
       | none => fromDot rest 0
     | _ => fromDot rest 0)
  | _ => none

/-- Lookahead of the third alternative pattern: newline, the word
Question, whitespace, digits. -/
def alt3Marker : List Char → Bool
  | '\n' :: rest =>
    if listStartsWith ("Question".toList) rest then
      let r2 := rest.drop 8
      let (wn, afterWs) := munchSpaces r2
      decide (1 ≤ wn) && (munchDigits afterWs).isSome
    else false
  | _ => false

/-- Separator class of the third alternative pattern: colon or
whitespace. -/
def colonWsSep (c : Char) : Bool := c = ':' || pySpace c

/-- Body of the third alternative pattern: the word Question, whitespace,
digits, colon-or-whitespace separator, lazy span. -/
def alt3Body (l : List Char) : Option (Nat × List Char × List Char) :=
  if listStartsWith ("Question".toList) l then
    let r2 := l.drop 8
    let (wn, afterWs) := munchSpaces r2
    if 1 ≤ wn then
      match munchDigits afterWs with
      | some (dn, ds, afterDigits) =>
        (qBodySep alt3Marker colonWsSep 1 afterDigits).map
          (fun r => (8 + wn + dn + r.1, ds, r.2))
      | none => none
    else none
  else none

/-- Does a suffix of the text satisfy the predicate (regex search). -/
def anySuffix (p : List Char → Bool) : List Char → Bool
  | [] => p []
  | l@(_ :: rest) => p l || anySuffix p rest

/-- The four sub-part indicator searches of detect_questions (MULTILINE
and IGNORECASE): parenthesised letter, parenthesised roman run, a letter
with close paren at a line start, a roman run with close paren at a line
start. -/
def hasSubPartMarkers (t : List Char) : Bool :=
  anySuffix letterParenMarker t ||
  anySuffix romanParenMarker t ||
  (splitNl t).any (fun ln =>
    match ln with
    | c :: ')' :: _ => c.isAlpha
    | _ => false) ||
  (splitNl t).any (fun ln =>
    let (n, r) := munchWhile romanChar ln
    decide (1 ≤ n) && (match r with | ')' :: _ => true | _ => false))

/-- The single-question construction of detect_questions: clean the text
and keep it when longer than 15 characters. -/
def mkSingleQuestion (q_num q_text : List Char) (pos : Nat) : List PyQuestion :=
  let t := clean_question_text q_text
  if 15 < t.length then [⟨q_num, t, pos, none⟩] else []

/-- The alternative-pattern stage of detect_questions: the first pattern
with matches wins. -/
def altQuestions (t : List Char) : List PyQuestion :=
  let run : (List Char → List QnMatch) → Option (List PyQuestion) :=
    fun find =>
      let ms := find t
      if ms.isEmpty then none
      else some (ms.flatMap (fun m =>
        let q_text := clean_question_text (pyStrip m.span)
        if 15 < q_text.length then [⟨m.qnum, q_text, m.qstart, none⟩] else []))
  match run (qnFindAll alt1Body) with
  | some qs => qs
  | none =>
    match run (qnFindAll alt2Body) with
    | some qs => qs
    | none =>
      match run (qnFindAll alt3Body) with
      | some qs => qs
      | none => []

/-- The duplicate-removal stage of detect_questions: keep the first
occurrence of each question_number. -/
def dedupQuestionsGo (seen : List (List Char)) : List PyQuestion → List PyQuestion
  | [] => []
  | q :: rest =>
    if q.question_number ∈ seen then dedupQuestionsGo seen rest
    else q :: dedupQuestionsGo (q.question_number :: seen) rest

def dedupQuestions (qs : List PyQuestion) : List PyQuestion := dedupQuestionsGo [] qs

/-- Greedy dot-plus group after a separator run on one line: the
separator run is maximal with at least minSep characters; if nothing
follows, the greedy run backtracks one step and the group is that last
separator character. -/
def lineAfterSep (sepP : Char → Bool) (minSep : Nat) (afterNum : List Char) :
    Option (List Char) :=
  let (sn, afterSep) := munchWhile sepP afterNum
  if sn < minSep then none
  else if !afterSep.isEmpty then some afterSep
  else if minSep + 1 ≤ sn then
    match (afterNum.take sn).getLast? with
    | some c => some [c]
    | none => none
  else none

/-- Line pattern of the line-by-line fallback: digits, dot or close paren,
whitespace, rest of line. -/
def lineMatch1 (ls : List Char) : Option (List Char × List Char) :=
  match munchDigits ls with
  | some (_, ds, c :: rest) =>
    if c = '.' || c = ')' then
      (lineAfterSep pySpace 1 rest).map (fun g2 => (ds, g2))
    else none
  | _ => none

/-- Line pattern of the fallback: Q, optional dot, whitespace star,
digits, colon-dot-whitespace separator, rest of line. -/
def lineMatch2 (ls : List Char) : Option (List Char × List Char) :=
  match ls with
  | 'Q' :: rest =>
    let tryFrom : List Char → Option (List Char × List Char) := fun s =>
      let (_, afterWs) := munchSpaces s
      match munchDigits afterWs with
      | some (_, ds, afterD) => (lineAfterSep qdotSep 1 afterD).map (fun g2 => (ds, g2))
      | none => none
    (match rest with
     | '.' :: r2 =>
       match tryFrom r2 with
       | some r => some r
       | none => tryFrom rest
     | _ => tryFrom rest)
  | _ => none

/-- Line pattern of the fallback: bracketed number then whitespace and the
rest of the line. -/
def lineMatch3 (ls : List Char) : Option (List Char × List Char) :=
  match ls with
  | '[' :: rest =>
    match munchDigits rest with
    | some (_, ds, ']' :: r2) => (lineAfterSep pySpace 1 r2).map (fun g2 => (ds, g2))
    | _ => none
  | _ => none

/-- The line-by-line fallback of detect_questions: walk the lines holding
the current question, push it when a new question line starts or at the
end, and append continuation lines with a blank. -/
def lineFallbackGo : Option PyQuestion → List (List Char) → List PyQuestion
  | cur, [] =>
    (match cur with
     | some c => if 15 < c.question_text.length then [c] else []
     | none => [])
  | cur, line :: rest =>
    let ls := pyStrip line
    if ls.isEmpty then lineFallbackGo cur rest
    else
      match
        (match lineMatch1 ls with
         | some r => some r
         | none =>
           match lineMatch2 ls with
           | some r => some r
           | none => lineMatch3 ls) with
      | some (ds, g2) =>
        let pushed :=
          (match cur with
           | some c => if 15 < c.question_text.length then [c] else []
           | none => [])
        pushed ++ lineFallbackGo (some ⟨ds, pyStrip g2, 0, none⟩) rest
      | none =>
        match cur with
        | some c =>
          lineFallbackGo (some ⟨c.question_number, c.question_text ++ ' ' :: ls,
            c.position, c.has_diagram⟩) rest
        | none => lineFallbackGo none rest

def lineFallback (t : List Char) : List PyQuestion := lineFallbackGo none (splitNl t)

/-- Python str.split on a double newline. -/
def splitOnNlNl : List Char → List (List Char)
  | [] => [[]]
  | '\n' :: '\n' :: rest => [] :: splitOnNlNl rest
  | c :: rest =>
    match splitOnNlNl rest with
    | h :: tl => (c :: h) :: tl
    | [] => [[c]]

/-- The paragraph fallback of detect_questions: stripped paragraphs longer
than 30 characters, numbered from 1, truncated to 800 characters. -/
def paraFallback (t : List Char) : List PyQuestion :=
  let paras := ((splitOnNlNl t).map pyStrip).filter (fun p => 30 < p.length)
  ((List.range paras.length).zip paras).map
    (fun e => ⟨natDigits (e.1 + 1), e.2.take 800, 0, none⟩)

/-- The pattern-strategy stage of detect_questions: the main pattern with
sub-part expansion when it matches, the alternative patterns otherwise. -/
def strategyQuestions (full_text : List Char) : List PyQuestion :=
  let main_matches := mainFindAll full_text
  if !main_matches.isEmpty then
    main_matches.flatMap (fun m =>
      let q_text := pyStrip m.span
      if hasSubPartMarkers q_text then
        let subs := extract_sub_parts m.qnum q_text
        if !subs.isEmpty then subs
        else mkSingleQuestion m.qnum q_text m.qstart
      else mkSingleQuestion m.qnum q_text m.qstart)
  else altQuestions full_text

/-- ai_service.detect_questions: main pattern with sub-part expansion,
alternative patterns, duplicate removal by question_number, then the
line-by-line and paragraph fallbacks.  The pages argument of the source is
unused by the function body and omitted. -/
def detect_questions (full_text : List Char) : List PyQuestion :=
  let uniq := dedupQuestions (strategyQuestions full_text)
  let q2 := if !uniq.isEmpty then uniq else lineFallback full_text
  if !q2.isEmpty then q2 else paraFallback full_text

-- ===== ai_service chapter resolution =====

/-- A page record as consumed by the chapter resolver (page_number and
text; the diagram fields of the extraction dict are not read by any of the
embedded functions). -/
structure Page where
  page_number : Int
  text : List Char
deriving DecidableEq

/-- A table-of-contents entry: chapter number, cleaned title, start page. -/
structure TocEntry where
  chapter_number : Nat
  title : List Char
  page_start : Int
deriving DecidableEq

/-- A chapter record of detect_chapters. -/
structure Chapter where
  chapter_number : Nat
  title : List Char
  page_start : Int
  page_end : Int
  content : List Char
deriving DecidableEq

/-- Character class of the TOC title group: letters, whitespace, dash,
ampersand. -/
def tocClass (c : Char) : Bool :=
  c.isAlpha || pySpace c || c = '-' || c = '&'

/-- Lazy title growth: after each added class character, try the tail of
the pattern on the remainder; the shortest successful title wins. -/
def tocTitleGo (tailCheck : List Char → Option Int) (classP : Char → Bool)
    (acc : List Char) : List Char → Option (List Char × Int)
  | [] => none
  | c :: rest =>
    if classP c then
      match tailCheck rest with
      | some pg => some ((c :: acc).reverse, pg)
      | none => tocTitleGo tailCheck classP (c :: acc) rest
    else none

/-- Tail of TOC patterns one, three and four: whitespace, one to three
digits, trailing whitespace, end of line. -/
def tocTail1 (l : List Char) : Option Int :=
  let (wn, afterWs) := munchSpaces l
  if wn = 0 then none
  else
    match munchDigits afterWs with
    | some (dn, ds, r) =>
      if 1 ≤ dn && dn ≤ 3 && r.all pySpace then some ((digitsToNat ds : Nat) : Int)
      else none
    | none => none

/-- Tail of TOC pattern two: whitespace, three or more dots, optional
whitespace, one to three digits, trailing whitespace, end of line. -/
def tocTail2 (l : List Char) : Option Int :=
  let (wn, afterWs) := munchSpaces l
  if wn = 0 then none
  else
    let (dotn, afterDots) := munchWhile (fun c => c = '.') afterWs
    if dotn < 3 then none
    else
      let (_, afterWs2) := munchSpaces afterDots
      match munchDigits afterWs2 with
      | some (dn, ds, r) =>
        if 1 ≤ dn && dn ≤ 3 && r.all pySpace then some ((digitsToNat ds : Nat) : Int)
        else none
      | none => none

/-- TOC pattern one: one or two digits, dot, whitespace, a capitalised
lazy title from the TOC class, whitespace, page number, end. -/
def tocLine1 (ls : List Char) : Option (Nat × List Char × Int) :=
  match munchDigits ls with
  | some (dn, ds, '.' :: rest) =>
    if 1 ≤ dn && dn ≤ 2 then
      let (wn, afterWs) := munchSpaces rest
      if 1 ≤ wn then
        match afterWs with
        | u :: rest2 =>
          if u.isUpper then
            (tocTitleGo tocTail1 tocClass [u] rest2).map
              (fun r => (digitsToNat ds, r.1, r.2))
          else none
        | [] => none
      else none
    else none
  | _ => none

/-- TOC pattern two: one or two digits, dot, whitespace, any lazy title,
whitespace, dot leaders, page number, end. -/
def tocLine2 (ls : List Char) : Option (Nat × List Char × Int) :=
  match munchDigits ls with
  | some (dn, ds, '.' :: rest) =>
    if 1 ≤ dn && dn ≤ 2 then
      let (wn, afterWs) := munchSpaces rest
      if 1 ≤ wn then
        match afterWs with
        | c :: rest2 =>
          (tocTitleGo tocTail2 (fun _ => true) [c] rest2).map
            (fun r => (digitsToNat ds, r.1, r.2))
        | [] => none
      else none
    else none
  | _ => none

/-- The literal Chapter-or-CHAPTER alternation at the head of TOC
patterns three and four. -/
def chapterWord (l : List Char) : Option (List Char) :=
  if listStartsWith ("Chapter".toList) l then some (l.drop 7)
  else if listStartsWith ("CHAPTER".toList) l then some (l.drop 7)
  else none

/-- TOC pattern three: the word Chapter, whitespace, one or two digits,
whitespace, capitalised lazy title, whitespace, page number, end. -/
def tocLine3 (ls : List Char) : Option (Nat × List Char × Int) :=
  match chapterWord ls with
  | none => none
  | some r0 =>
    let (wn, afterWs) := munchSpaces r0
    if 1 ≤ wn then
      match munchDigits afterWs with
      | some (dn, ds, rest) =>
        if 1 ≤ dn && dn ≤ 2 then
          let (wn2, afterWs2) := munchSpaces rest
          if 1 ≤ wn2 then
            match afterWs2 with
            | u :: rest2 =>
              if u.isUpper then
                (tocTitleGo tocTail1 tocClass [u] rest2).map
                  (fun r => (digitsToNat ds, r.1, r.2))
              else none
            | [] => none
          else none
        else none
      | none => none
    else none

/-- TOC pattern four: the word Chapter, whitespace, one or two digits, a
colon, whitespace, any lazy title, whitespace, page number, end. -/
def tocLine4 (ls : List Char) : Option (Nat × List Char × Int) :=
  match chapterWord ls with
  | none => none
  | some r0 =>
    let (wn, afterWs) := munchSpaces r0
    if 1 ≤ wn then
      match munchDigits afterWs with
      | some (dn, ds, ':' :: rest) =>
        if 1 ≤ dn && dn ≤ 2 then
          let (wn2, afterWs2) := munchSpaces rest
          if 1 ≤ wn2 then
            match afterWs2 with
            | c :: rest2 =>
              (tocTitleGo tocTail1 (fun _ => true) [c] rest2).map
                (fun r => (digitsToNat ds, r.1, r.2))
            | [] => none
          else none
        else none
      | _ => none
    else none

/-- Cleaning sub of a trailing whitespace-digits run. -/
def subTrailingWsNum (l : List Char) : List Char :=
  let r := l.reverse
  let r1 := r.dropWhile pySpace
  let (dn, r2) := munchWhile Char.isDigit r1
  if dn = 0 then l
  else
    let (wn, r3) := munchWhile pySpace r2
    if wn = 0 then l else r3.reverse

/-- Cleaning sub removing three-or-more dots and everything after. -/
def subDotsToEnd : List Char → List Char
  | '.' :: '.' :: '.' :: _ => []
  | c :: rest => c :: subDotsToEnd rest
  | [] => []

/-- Cleaning sub of a trailing whitespace-dot. -/
def subTrailingWsDot (l : List Char) : List Char :=
  let r := l.reverse
  let r1 := r.dropWhile pySpace
  match r1 with
  | '.' :: r2 =>
    let (wn, r3) := munchWhile pySpace r2
    if wn = 0 then l else r3.reverse
  | _ => l

/-- Cleaning sub of a leading number-dot. -/
def subLeadingNumDot (l : List Char) : List Char :=
  match munchDigits l with
  | some (_, _, '.' :: rest) => rest.dropWhile pySpace
  | _ => l

/-- Cleaning sub of a trailing dash with surrounding whitespace. -/
def subTrailingDash (l : List Char) : List Char :=
  let r := l.reverse
  let r1 := r.dropWhile pySpace
  match r1 with
  | '-' :: r2 => (r2.dropWhile pySpace).reverse
  | _ => l

/-- The aggressive title cleaning of extract_from_table_of_contents. -/
def cleanTocTitle (t : List Char) : List Char :=
  pyStrip (subTrailingDash (subLeadingNumDot (subTrailingWsDot
    (subDotsToEnd (subTrailingWsNum t)))))

/-- The title rejections of extract_from_table_of_contents.  Returns true
when the cleaned title survives every check. -/
def tocTitleValid (title : List Char) : Bool :=
  let lower := toLowerL title
  !(title.length < 5 || 80 < title.length) &&
  !(title.all Char.isDigit) &&
  !(containsL [('-' : Char)] title && 50 < title.length) &&
  !([("what".toList), ("to calculate".toList), ("determine".toList),
     ("find".toList), ("calculate".toList), ("however".toList),
     ("therefore".toList), ("thus".toList), ("hence".toList),
     ("electric field at".toList), ("magnetic field at".toList)].any
      (fun s => listStartsWith s lower)) &&
  (match title with
   | c :: _ => c.isUpper
   | [] => false) &&
  !(containsL [('?' : Char)] title ||
    [("how".toList), ("why".toList), ("when".toList), ("where".toList)].any
      (fun s => listStartsWith s lower))

/-- One line of a TOC page: the four patterns are tried in order; a match
whose cleaned title fails validation falls through to the next pattern. -/
def tocLineEntryGo (ls : List Char) :
    List (List Char → Option (Nat × List Char × Int)) → Option TocEntry
  | [] => none
  | p :: rest =>
    match p ls with
    | some (chn, rawTitle, pg) =>
      let title := cleanTocTitle (pyStrip rawTitle)
      if tocTitleValid title then some ⟨chn, title, pg⟩
      else tocLineEntryGo ls rest
    | none => tocLineEntryGo ls rest

def tocLineEntry (ls : List Char) : Option TocEntry :=
  tocLineEntryGo ls [tocLine1, tocLine2, tocLine3, tocLine4]

/-- Does a stripped line match the numbered-line probe (one or two digits
then a dot at the start)? -/
def startsNumDot (ls : List Char) : Bool :=
  match munchDigits ls with
  | some (dn, _, '.' :: _) => dn ≤ 2
  | _ => false

/-- TOC entries contributed by one page: the page must look like a TOC
page (contents vocabulary in the leading 500 lowercased characters, or at
least five numbered lines), then every line of at least five characters is
run through the patterns. -/
def tocPageEntries (pg : Page) : List TocEntry :=
  let lines := splitNl pg.text
  let numbered := (lines.filter (fun ln => startsNumDot (pyStrip ln))).length
  let is_toc :=
    ([("contents".toList), ("table of contents".toList), ("index".toList),
      ("syllabus".toList), ("chapter".toList)].any
        (fun k => containsL k ((toLowerL pg.text).take 500))) || 5 ≤ numbered
  if is_toc then
    lines.foldl (fun acc ln =>
      let ls := pyStrip ln
      if ls.length < 5 then acc
      else
        match tocLineEntry ls with
        | some e => acc ++ [e]
        | none => acc) []
  else []

/-- Keep the first occurrence of each chapter-number and title pair. -/
def dedupToc (seen : List (Nat × List Char)) : List TocEntry → List TocEntry
  | [] => []
  | e :: rest =>
    if (e.chapter_number, e.title) ∈ seen then dedupToc seen rest
    else e :: dedupToc ((e.chapter_number, e.title) :: seen) rest

/-- ai_service.extract_from_table_of_contents: collect entries over the
first twenty pages, drop duplicates, sort stably by chapter number. -/
def extract_from_table_of_contents (pages : List Page) : List TocEntry :=
  let raw := (pages.take 20).flatMap tocPageEntries
  if raw.isEmpty then raw
  else List.insertionSort (fun a b => a.chapter_number ≤ b.chapter_number)
    (dedupToc [] raw)

/-- One chapter of map_toc_to_content: the page range is filtered from the
page list and a chapter is only produced when the range holds a page. -/
def mapTocOne (pages : List Page) (e : TocEntry) (pend : Int) : List Chapter :=
  let content := (pages.filter (fun p =>
    decide (e.page_start ≤ p.page_number) && decide (p.page_number ≤ pend))).map Page.text
  if content.isEmpty then []
  else [⟨e.chapter_number, e.title, e.page_start, pend, joinNl content⟩]

/-- The indexed loop of map_toc_to_content: each entry ends where the next
entry starts, minus one; the last ends at the page count. -/
def mapTocGo (pages : List Page) : List TocEntry → List Chapter
  | [] => []
  | [e] => mapTocOne pages e (pages.length : Int)
  | e :: e2 :: rest => mapTocOne pages e (e2.page_start - 1) ++ mapTocGo pages (e2 :: rest)

/-- ai_service.map_toc_to_content. -/
def map_toc_to_content (toc : List TocEntry) (pages : List Page) : List Chapter :=
  mapTocGo pages toc

/-- The hard-coded NCERT Physics Class 12 chapter table of
try_manual_chapter_mapping. -/
def ncertPhysics12 : List TocEntry :=
  [⟨1, ("Electric Charges and Fields".toList), 1⟩,
   ⟨2, ("Electrostatic Potential and Capacitance".toList), 45⟩,
   ⟨3, ("Current Electricity".toList), 89⟩,
   ⟨4, ("Moving Charges and Magnetism".toList), 133⟩,
   ⟨5, ("Magnetism and Matter".toList), 177⟩,
   ⟨6, ("Electromagnetic Induction".toList), 221⟩,
   ⟨7, ("Alternating Current".toList), 265⟩,
   ⟨8, ("Electromagnetic Waves".toList), 309⟩,
   ⟨9, ("Ray Optics and Optical Instruments".toList), 353⟩,
   ⟨10, ("Wave Optics".toList), 397⟩,
   ⟨11, ("Dual Nature of Radiation and Matter".toList), 441⟩,
   ⟨12, ("Atoms".toList), 485⟩,
   ⟨13, ("Nuclei".toList), 529⟩,
   ⟨14, ("Semiconductor Electronics".toList), 573⟩]

/-- ai_service.try_manual_chapter_mapping: the template fires when three
distinctive titles co-occur in the first fifty pages; the per-entry range
and content construction is the same loop as map_toc_to_content, so it is
expressed through mapTocGo over the table. -/
def try_manual_chapter_mapping (pages : List Page) : Option (List Chapter) :=
  let full_text := toLowerL (joinSpace ((pages.take 50).map Page.text))
  if containsL ("electric charges".toList) full_text &&
     containsL ("electrostatic potential".toList) full_text &&
     containsL ("current electricity".toList) full_text then
    some (mapTocGo pages ncertPhysics12)
  else none

/-- Character class of the in-body heading titles. -/
def headingClass (c : Char) : Bool := c.isAlpha || pySpace c || c = '-'

/-- Greedy heading title group: an upper-case letter then at least minRest
class characters running to the end of the line. -/
def headingTitleFrom (minRest : Nat) : List Char → Option (List Char)
  | u :: rest =>
    if u.isUpper && rest.all headingClass && minRest ≤ rest.length then
      some (u :: rest)
    else none
  | [] => none

/-- Head of the worded heading patterns: the given word, whitespace, a
number, then a colon-or-whitespace separator run. -/
def headingPrefix (word : List Char) (l : List Char) : Option (List Char) :=
  if listStartsWith word l then
    let r := l.drop word.length
    let (wn, afterWs) := munchSpaces r
    if 1 ≤ wn then
      match munchDigits afterWs with
      | some (_, _, rest) =>
        let (sn, afterSep) := munchWhile (fun c => c = ':' || pySpace c) rest
        if 1 ≤ sn then some afterSep else none
      | none => none
    else none
  else none

/-- The numbered heading pattern: digits, dot, whitespace, then a title of
at least six characters. -/
def headingNumTry (ls : List Char) : Option (List Char) :=
  match munchDigits ls with
  | some (_, _, '.' :: rest) =>
    let (wn, afterWs) := munchSpaces rest
    if 1 ≤ wn then headingTitleFrom 5 afterWs else none
  | _ => none

/-- Validation of a heading title in detect_chapters. -/
def headingTitleOk (title : List Char) : Bool :=
  let lower := toLowerL title
  !([("what".toList), ("to calculate".toList), ("determine".toList),
     ("find".toList), ("however".toList), ("therefore".toList)].any
      (fun s => listStartsWith s lower)) &&
  !(containsL [('?' : Char)] title ||
    (match title.reverse with
     | ',' :: _ => true
     | _ => false))

/-- One line against the five heading patterns of detect_chapters, in
source order; an invalid title falls through to the next pattern. -/
def headingMatchGo (ls : List Char) :
    List (List Char → Option (List Char)) → Option (List Char)
  | [] => none
  | p :: rest =>
    match p ls with
    | some rawTitle =>
      let title := pyStrip rawTitle
      if headingTitleOk title then some title else headingMatchGo ls rest
    | none => headingMatchGo ls rest

def headingMatchLine (ls : List Char) : Option (List Char) :=
  headingMatchGo ls
    [fun l => (headingPrefix ("Chapter".toList) l).bind (headingTitleFrom 1),
     fun l => (headingPrefix ("CHAPTER".toList) l).bind (headingTitleFrom 1),
     fun l => (headingPrefix ("Unit".toList) l).bind (headingTitleFrom 1),
     fun l => (headingPrefix ("UNIT".toList) l).bind (headingTitleFrom 1),
     headingNumTry]

/-- State of the in-body heading scan: the open chapter, the chapter
counter, the closed chapters. -/
structure HeadState where
  current : Option Chapter
  counter : Nat
  done : List Chapter
deriving DecidableEq

/-- The line loop of the heading scan over the first ten lines of a page:
a heading closes the open chapter at the previous page and opens a new
one at this page. -/
def headingScanLines (pageNum : Int) (st : HeadState) : List (List Char) → HeadState
  | [] => st
  | ln :: rest =>
    let ls := pyStrip ln
    if ls.length < 5 || 100 < ls.length then headingScanLines pageNum st rest
    else
      match headingMatchLine ls with
      | some title =>
        let done2 :=
          match st.current with
          | some c => st.done ++
              [⟨c.chapter_number, c.title, c.page_start, pageNum - 1, pyStrip c.content⟩]
          | none => st.done
        let k := st.counter + 1
        headingScanLines pageNum ⟨some ⟨k, title, pageNum, pageNum, []⟩, k, done2⟩ rest
      | none => headingScanLines pageNum st rest

/-- The page step of the heading scan: after the line loop, this page's
text accumulates into the open chapter and its end moves here. -/
def headingScanPage (st : HeadState) (pg : Page) : HeadState :=
  let st2 := headingScanLines pg.page_number st ((splitNl pg.text).take 10)
  match st2.current with
  | some c =>
    ⟨some ⟨c.chapter_number, c.title, c.page_start, pg.page_number,
      c.content ++ '\n' :: pg.text⟩, st2.counter, st2.done⟩
  | none => st2

/-- The in-body heading strategy of detect_chapters. -/
def heading_scan (pages : List Page) : List Chapter :=
  let st := pages.foldl headingScanPage ⟨none, 0, []⟩
  match st.current with
  | some c =>
    st.done ++ [⟨c.chapter_number, c.title, c.page_start, c.page_end, pyStrip c.content⟩]
  | none => st.done

/-- The uniform ten-page fallback of detect_chapters, fuelled so the
kernel can evaluate it (the fuel is the page count, enough since every
step consumes at least one page). -/
def fallback_chunks_go : Nat → List Page → Nat → List Chapter
  | 0, _, _ => []
  | _ + 1, [], _ => []
  | fuel + 1, ps@(p :: _), k =>
    let chunk := ps.take 10
    ⟨k + 1, ("Section ".toList) ++ natDigits (k + 1), p.page_number,
      (chunk.getLastD p).page_number, joinNl (chunk.map Page.text)⟩ ::
    fallback_chunks_go fuel (ps.drop 10) (k + 1)

def fallback_chunks (pages : List Page) : List Chapter :=
  fallback_chunks_go pages.length pages 0

/-- The TOC tier of detect_chapters: map the TOC to content when the TOC
parse produced entries. -/
def toc_tier (pages : List Page) : List Chapter :=
  let toc := extract_from_table_of_contents pages
  if toc.isEmpty then [] else map_toc_to_content toc pages

/-- The template tier of detect_chapters: the manual mapping counts only
when it yields more than five chapters. -/
def manual_tier (pages : List Page) : Option (List Chapter) :=
  match try_manual_chapter_mapping pages with
  | some m => if 5 < m.length then some m else none
  | none => none

/-- The final tiers of detect_chapters: the in-body heading scan, then
the uniform ten-page fallback. -/
def heading_or_chunks (pages : List Page) : List Chapter :=
  let cs := heading_scan pages
  if cs.isEmpty then fallback_chunks pages else cs

/-- ai_service.detect_chapters: the TOC strategy, then the hard-coded
template when it yields more than five chapters, then the in-body heading
scan, then the uniform ten-page fallback. -/
def detect_chapters (pages : List Page) : List Chapter :=
  let tocMapped := toc_tier pages
  if tocMapped.isEmpty then
    match manual_tier pages with
    | some m => m
    | none => heading_or_chunks pages
  else tocMapped

/-- The wrapping fallback of extract_chapters_from_textbook: when
detect_chapters yields nothing the whole book becomes one chapter. -/
def extract_chapters_result (pages : List Page) : List Chapter :=
  let chapters := detect_chapters pages
  if chapters.isEmpty then
    [⟨1, ("Complete Textbook".toList), 1, (pages.length : Int),
      joinSpace (pages.map Page.text)⟩]
  else chapters

-- ===== ai_service retrieval, refinement validation, orchestration =====

/-- A chapter entry of the persisted index metadata (content is the
500-character excerpt stored at build time). -/
structure ChapterMeta where
  chapter_number : Nat
  chapter_title : List Char
  page_start : Int
  page_end : Int
  content : List Char
deriving DecidableEq

/-- A retrieval candidate as built in map_questions_to_chapters.  The
llm_reasoning key is only added when refinement succeeds; it is modelled
as a field that is empty until then. -/
structure Candidate where
  chapter_number : Nat
  chapter_title : List Char
  page_start : Int
  page_end : Int
  similarity_score : Rat
  content_preview : List Char
  llm_reasoning : List Char
deriving DecidableEq

/-- The parsed structured record extracted from the completion service's
response text. -/
structure LLMResult where
  chapter_title : List Char
  confidence : Rat
  reasoning : List Char
deriving DecidableEq

/-- The number of neighbours requested per query: min(5, index.ntotal). -/
def kQuery (ntotal : Nat) : Nat := min 5 ntotal

/-- Python round(x, 2) modelled over the rationals.  Mathlib's round is
round-half-up while Python floats round half to even; the two agree except
on exact midpoints of the second decimal, which the embedding does not
depend on. -/
def pyRound2 (q : Rat) : Rat := ((round (q * 100) : Int) : Rat) / 100

/-- The distance-to-score map of map_questions_to_chapters:
round(max(0, 100 - distance * 10), 2). -/
def similarity_score_of (distance : Rat) : Rat :=
  pyRound2 (max 0 (100 - distance * 10))

/-- The candidate-building loop of map_questions_to_chapters: every
retrieved pair of index and distance whose index is inside the chapter
list yields one candidate (List.get? is exactly the idx < len guard of
the source followed by the indexing). -/
def build_candidates (chapters : List ChapterMeta) (results : List (Nat × Rat)) :
    List Candidate :=
  results.filterMap (fun p =>
    (chapters.get? p.1).map (fun ch =>
      ⟨ch.chapter_number, ch.chapter_title, ch.page_start, ch.page_end,
        similarity_score_of p.2, ch.content.take 1000, []⟩))

/-- The validation step of refine_chapter_match_with_llm: a parsed record
whose chapter_title is not among the candidate titles is discarded.  The
candidates argument is the full list the orchestrator passes (all
retrieved candidates), over which valid_titles is computed. -/
def validate_llm_result (llm_result : Option LLMResult)
    (candidates : List Candidate) : Option LLMResult :=
  match llm_result with
  | none => none
  | some r =>
    let valid_titles := candidates.map Candidate.chapter_title
    if r.chapter_title ∈ valid_titles then some r else none

/-- The per-question selection of map_questions_to_chapters after
refinement: a surviving record picks the first candidate with the
returned title (falling back to the head) and overrides its score and
reasoning; a discarded one falls back to the top retrieval candidate.
The empty-candidate case never reaches this code in the source (guarded
by len(candidates) > 0). -/
def select_chapters (candidates : List Candidate) (refined : Option LLMResult) :
    List Candidate :=
  match candidates with
  | [] => []
  | c0 :: _ =>
    match refined with
    | some r =>
      let best := (candidates.find? (fun c => c.chapter_title == r.chapter_title)).getD c0
      [⟨best.chapter_number, best.chapter_title, best.page_start, best.page_end,
        r.confidence, best.content_preview, r.reasoning⟩]
    | none => [c0]

/-- The refinement stage of one question: validation then selection. -/
def question_chapters (candidates : List Candidate) (llm_result : Option LLMResult) :
    List Candidate :=
  select_chapters candidates (validate_llm_result llm_result candidates)

/-- The delay guard before a refinement call in map_questions_to_chapters.
The source tests the variable idx, but the inner candidate loop
(for i, idx in enumerate(indices[0])) has reassigned it to each retrieved
index, so at the guard idx is the last retrieved index when any were
retrieved and the one-based question position otherwise. -/
def llm_delay_guard (question_idx : Nat) (retrieved_indices : List Nat) : Bool :=
  decide (0 < retrieved_indices.getLastD question_idx)

-- ===== question_parser.split_into_question_blocks_fixed =====

/-- The OCR letter-to-digit confusion table of
fix_ocr_number_misrecognition. -/
def ocrFix (c : Char) : Option Char :=
  if c = 'q' then some '7'
  else if c = 'l' then some '1'
  else if c = 'o' then some '0'
  else if c = 's' then some '5'
  else if c = 'b' then some '6'
  else if c = 'g' then some '9'
  else none

/-- Replace the first occurrence of pat in l by rep (Python str.replace
with count one). -/
def replaceFirst (pat rep : List Char) : List Char → List Char
  | [] => if listStartsWith pat [] then rep else []
  | l@(c :: rest) =>
    if listStartsWith pat l then rep ++ l.drop pat.length
    else c :: replaceFirst pat rep rest

/-- One line of fix_ocr_number_misrecognition: a single letter (the class
is case-insensitive), optional whitespace, a dot or comma, whitespace, at
the start of the stripped line; a letter in the confusion table is
rewritten to its digit by replacing the matched text inside the original
line. -/
def fix_ocr_line (line : List Char) : List Char :=
  let ls := pyStrip line
  match ls with
  | c :: rest =>
    if c.isAlpha then
      let (wn, afterWs) := munchSpaces rest
      match afterWs with
      | p :: rest2 =>
        if p = '.' || p = ',' then
          let (wn2, _) := munchSpaces rest2
          if 1 ≤ wn2 then
            match ocrFix c.toLower with
            | some d =>
              let g0 := c :: (rest.take wn ++ p :: rest2.take wn2)
              replaceFirst g0 [d, '.', ' '] line
            | none => line
          else line
        else line
      | [] => line
    else line
  | [] => line

/-- question_parser.fix_ocr_number_misrecognition. -/
def fix_ocr_number_misrecognition (t : List Char) : List Char :=
  joinNl ((splitNl t).map fix_ocr_line)

/-- The margin-number probe of preprocess_margin_numbers: optional
whitespace, an optional Q with optional dot, digits, an optional dot or
close paren, trailing whitespace, end of line. -/
def marginNumberLine (line : List Char) : Bool :=
  let r1 := line.dropWhile pySpace
  let tryNum : List Char → Bool := fun s =>
    match munchDigits s with
    | some (_, _, rest) =>
      (match rest with
       | c :: r2 => (if c = '.' || c = ')' then r2.all pySpace else false) || rest.all pySpace
       | [] => true)
    | none => false
  match r1 with
  | 'Q' :: rest =>
    (match rest with
     | '.' :: r2 => tryNum (r2.dropWhile pySpace)
     | _ => false) ||
    tryNum (rest.dropWhile pySpace)
  | _ => tryNum r1

/-- The next-line probe of preprocess_margin_numbers: digits, optional
whitespace, dot or close paren at the start. -/
def startsQnumPat (ls : List Char) : Bool :=
  match munchDigits ls with
  | some (_, _, rest) =>
    (match rest.dropWhile pySpace with
     | c :: _ => c = '.' || c = ')'
     | [] => false)
  | none => false

/-- The line-walking loop of preprocess_margin_numbers: a bare margin
number line joins with the following line as number-dot-text. -/
def pmGo : List (List Char) → List (List Char)
  | [] => []
  | [l] => [l]
  | l :: next :: rest =>
    if marginNumberLine l then
      let nls := pyStrip next
      if !nls.isEmpty && !startsQnumPat nls then
        (pyStrip l ++ '.' :: ' ' :: nls) :: pmGo rest
      else l :: pmGo (next :: rest)
    else l :: pmGo (next :: rest)

/-- question_parser.preprocess_margin_numbers. -/
def preprocess_margin_numbers (t : List Char) : List Char :=
  joinNl (pmGo (splitNl t))

/-- A match of the structural pattern battery: start, end, the digit
characters of group 1. -/
structure BMatch where
  bstart : Nat
  bend : Nat
  bds : List Char
deriving DecidableEq

/-- Whitespace star then digits: consumed count, digit chars, rest. -/
def wsDigits (l : List Char) : Option (Nat × List Char × List Char) :=
  let (wn, r) := munchSpaces l
  (munchDigits r).map (fun d => (wn + d.1, d.2.1, d.2.2))

/-- The trailing part whitespace-star then one character of the class. -/
def wsThenClass (classP : Char → Bool) (l : List Char) : Option Nat :=
  let (wn, r) := munchSpaces l
  match r with
  | c :: _ => if classP c then some (wn + 1) else none
  | [] => none

/-- The trailing part whitespace-plus then one character of the class. -/
def wsPlusThenClass (classP : Char → Bool) (l : List Char) : Option Nat :=
  let (wn, r) := munchSpaces l
  if wn = 0 then none
  else
    match r with
    | c :: _ => if classP c then some (wn + 1) else none
    | [] => none

def isDotParen (c : Char) : Bool := c = '.' || c = ')'

/-- Battery pattern bodies, one definition per pattern of the source
list, in order.  Each returns consumed length and the digit chars of
group 1; the caret-or-newline opener is added by the caller. -/
def bp1Body (l : List Char) : Option (Nat × List Char) :=
  (wsDigits l).bind (fun d =>
    (wsThenClass isDotParen d.2.2).map (fun n =>
      let rest := d.2.2.drop n
      let (wn2, _) := munchSpaces rest
      (d.1 + n + wn2, d.2.1)))

def bp2Body (l : List Char) : Option (Nat × List Char) :=
  (munchDigits l).bind (fun d =>
    (wsThenClass isDotParen d.2.2).map (fun n => (d.1 + n, d.2.1)))

def bp3Body (l : List Char) : Option (Nat × List Char) :=
  (wsDigits l).bind (fun d =>
    (wsThenClass (fun c => c = ',') d.2.2).map (fun n =>
      let rest := d.2.2.drop n
      let (wn2, _) := munchSpaces rest
      (d.1 + n + wn2, d.2.1)))

def bp4Body (l : List Char) : Option (Nat × List Char) :=
  (munchDigits l).bind (fun d =>
    (wsThenClass (fun c => c = ',') d.2.2).bind (fun n =>
      (wsPlusThenClass Char.isUpper (d.2.2.drop n)).map (fun n2 =>
        (d.1 + n + n2, d.2.1))))

def bp5Body (l : List Char) : Option (Nat × List Char) :=
  (wsDigits l).bind (fun d =>
    (wsPlusThenClass Char.isUpper d.2.2).map (fun n => (d.1 + n, d.2.1)))

def bp6Body (l : List Char) : Option (Nat × List Char) :=
  (munchDigits l).bind (fun d =>
    (wsPlusThenClass Char.isAlpha d.2.2).map (fun n => (d.1 + n, d.2.1)))

def bp7Body (l : List Char) : Option (Nat × List Char) :=
  match l with
  | 'Q' :: rest =>
    let fromHere : List Char → Nat → Option (Nat × List Char) := fun s pre =>
      (wsDigits s).map (fun d => (1 + pre + d.1, d.2.1))
    (match rest with
     | '.' :: r2 =>
       match fromHere r2 1 with
       | some r => some r
       | none => fromHere rest 0
     | _ => fromHere rest 0)
  | _ => none

def bp8Body (l : List Char) : Option (Nat × List Char) :=
  if listStartsWith ("Question".toList) l then
    let r := l.drop 8
    let (wn, afterWs) := munchSpaces r
    if 1 ≤ wn then
      (munchDigits afterWs).map (fun d => (8 + wn + d.1, d.2.1))
    else none
  else none

def bp9Body (l : List Char) : Option (Nat × List Char) :=
  (wsDigits l).bind (fun d =>
    (wsThenClass isDotParen d.2.2).map (fun n => (d.1 + n, d.2.1)))

def bp10Body (l : List Char) : Option (Nat × List Char) :=
  (munchDigits l).bind (fun d =>
    (wsThenClass isDotParen d.2.2).bind (fun n =>
      (wsPlusThenClass Char.isUpper (d.2.2.drop n)).map (fun n2 =>
        (d.1 + n + n2, d.2.1))))

def bp11Body (l : List Char) : Option (Nat × List Char) :=
  (wsDigits l).bind (fun d =>
    (wsThenClass (fun c => c = '.') d.2.2).map (fun n => (d.1 + n, d.2.1)))

def bp12Body (l : List Char) : Option (Nat × List Char) :=
  (wsDigits l).bind (fun d =>
    (wsThenClass (fun c => c = ')') d.2.2).map (fun n => (d.1 + n, d.2.1)))

def bp13Body (l : List Char) : Option (Nat × List Char) :=
  (wsDigits l).bind (fun d =>
    let (wn, _) := munchSpaces d.2.2
    if 2 ≤ wn then some (d.1 + wn, d.2.1) else none)

def bp14Body (l : List Char) : Option (Nat × List Char) :=
  (wsDigits l).bind (fun d =>
    (wsThenClass (fun c => c = ':' || c = '-') d.2.2).map (fun n => (d.1 + n, d.2.1)))

/-- Pattern fifteen needs the whitespace star to end on a newline: the
greedy run backtracks to the last newline inside it. -/
def bp15Body (l : List Char) : Option (Nat × List Char) :=
  (munchDigits l).bind (fun d =>
    let (wn, _) := munchSpaces d.2.2
    let run := d.2.2.take wn
    let lastNl := (run.zip (List.range wn)).foldl
      (fun acc e => if e.1 = '\n' then some e.2 else acc) none
    lastNl.map (fun j => (d.1 + j + 1, d.2.1)))

def bp16Body (l : List Char) : Option (Nat × List Char) :=
  (wsDigits l).bind (fun d =>
    (wsThenClass isDotParen d.2.2).bind (fun n =>
      (wsThenClass Char.isUpper (d.2.2.drop n)).map (fun n2 =>
        (d.1 + n + n2, d.2.1))))

/-- The question-starter word alternation of pattern seventeen, in source
order. -/
def starterWords : List (List Char) :=
  [("A".toList), ("The".toList), ("Which".toList), ("What".toList),
   ("How".toList), ("Find".toList), ("Calculate".toList),
   ("Determine".toList), ("State".toList), ("Define".toList),
   ("Explain".toList), ("Describe".toList), ("Write".toList),
   ("Name".toList), ("Give".toList), ("Show".toList), ("Prove".toList),
   ("Draw".toList), ("Identify".toList)]

def bp17Body (l : List Char) : Option (Nat × List Char) :=
  (wsDigits l).bind (fun d =>
    match d.2.2 with
    | c :: rest =>
      if c = '.' || c = ')' || c = ',' then
        let (wn2, afterWs) := munchSpaces rest
        (starterWords.find? (fun w => listStartsWith w afterWs)).map
          (fun w => (d.1 + 1 + wn2 + w.length, d.2.1))
      else none
    | [] => none)

/-- Wrap a body with the caret-or-newline opener (caret branch first). -/
def bLineAnchor (body : List Char → Option (Nat × List Char))
    (prev : Option Char) (l : List Char) : Option (Nat × List Char) :=
  match (if atLineStart prev then body l else none) with
  | some r => some r
  | none =>
    match l with
    | '\n' :: rest => (body rest).map (fun r => (r.1 + 1, r.2))
    | _ => none

/-- Pattern nine anchors with a bare multiline caret (no newline
consumption). -/
def bCaretOnly (body : List Char → Option (Nat × List Char))
    (prev : Option Char) (l : List Char) : Option (Nat × List Char) :=
  if atLineStart prev then body l else none

/-- Pattern ten anchors with a word boundary before the digits. -/
def bWordBoundary (body : List Char → Option (Nat × List Char))
    (prev : Option Char) (l : List Char) : Option (Nat × List Char) :=
  match prev with
  | some c => if wordChar c then none else body l
  | none => body l

/-- Pattern sixteen begins with a literal newline. -/
def bNlOnly (body : List Char → Option (Nat × List Char))
    (_prev : Option Char) (l : List Char) : Option (Nat × List Char) :=
  match l with
  | '\n' :: rest => (body rest).map (fun r => (r.1 + 1, r.2))
  | _ => none

/-- All matches of one battery pattern. -/
def bmFindAll (tryAt : Option Char → List Char → Option (Nat × List Char))
    (t : List Char) : List BMatch :=
  (scanAll tryAt t).map (fun e => ⟨e.1, e.1 + e.2.1, e.2.2⟩)

/-- The seventeen structural patterns of split_into_question_blocks_fixed,
in source order, each run as its own finditer. -/
def batteryAll (t : List Char) : List BMatch :=
  [bLineAnchor bp1Body, bLineAnchor bp2Body, bLineAnchor bp3Body,
   bLineAnchor bp4Body, bLineAnchor bp5Body, bLineAnchor bp6Body,
   bLineAnchor bp7Body, bLineAnchor bp8Body, bCaretOnly bp9Body,
   bWordBoundary bp10Body, bLineAnchor bp11Body, bLineAnchor bp12Body,
   bLineAnchor bp13Body, bLineAnchor bp14Body, bLineAnchor bp15Body,
   bNlOnly bp16Body, bLineAnchor bp17Body].flatMap (fun p => bmFindAll p t)

/-- Leftmost regex search: try the pattern at each position, left to
right. -/
def searchFirstP {α : Type} (tryAt : List Char → Option α) : List Char → Option α
  | [] => tryAt []
  | l@(_ :: rest) =>
    match tryAt l with
    | some a => some a
    | none => searchFirstP tryAt rest

/-- False-positive pattern of the form word, whitespace, digits
(case-insensitive); returns the matched text. -/
def fpWordWsDigits (word : List Char) (s : List Char) : Option (List Char) :=
  if listStartsWithCI word s then
    let r := s.drop word.length
    let (wn, afterWs) := munchSpaces r
    if 1 ≤ wn then
      (munchDigits afterWs).map (fun d => s.take (word.length + wn + d.1))
    else none
  else none

/-- False-positive pattern of the form word, whitespace, word. -/
def fpWordWsWord (w1 w2 : List Char) (s : List Char) : Option (List Char) :=
  if listStartsWithCI w1 s then
    let r := s.drop w1.length
    let (wn, afterWs) := munchSpaces r
    if 1 ≤ wn && listStartsWithCI w2 afterWs then
      some (s.take (w1.length + wn + w2.length))
    else none
  else none

/-- False-positive pattern of the form literal, whitespace star, digits. -/
def fpLitWsStarDigits (lit : List Char) (s : List Char) : Option (List Char) :=
  if listStartsWithCI lit s then
    let r := s.drop lit.length
    let (wn, afterWs) := munchSpaces r
    (munchDigits afterWs).map (fun d => s.take (lit.length + wn + d.1))
  else none

/-- The P.T.O. pattern: each letter with a greedy optional dot. -/
def fpPTO (s : List Char) : Option (List Char) :=
  let letterOptDot : Char → List Char → Option (Nat × List Char) :=
    fun ch l =>
      match l with
      | c :: rest =>
        if c.toLower = ch then
          match rest with
          | '.' :: r2 => some (2, r2)
          | _ => some (1, rest)
        else none
      | [] => none
  (letterOptDot 'p' s).bind (fun a =>
    (letterOptDot 't' a.2).bind (fun b =>
      (letterOptDot 'o' b.2).map (fun c =>
        s.take (a.1 + b.1 + c.1))))

/-- The date-or-code pattern: digits, dash or slash, digits, dash or
slash, digits. -/
def fpDateCode (s : List Char) : Option (List Char) :=
  (munchDigits s).bind (fun d1 =>
    match d1.2.2 with
    | c1 :: r1 =>
      if c1 = '-' || c1 = '/' then
        (munchDigits r1).bind (fun d2 =>
          match d2.2.2 with
          | c2 :: r2 =>
            if c2 = '-' || c2 = '/' then
              (munchDigits r2).map (fun d3 =>
                s.take (d1.1 + 1 + d2.1 + 1 + d3.1))
            else none
          | [] => none)
      else none
    | [] => none)

/-- The set-letter pattern: the word Set, whitespace, one letter (the
class is case-insensitive). -/
def fpSetLetter (s : List Char) : Option (List Char) :=
  if listStartsWithCI ("set".toList) s then
    let r := s.drop 3
    let (wn, afterWs) := munchSpaces r
    if 1 ≤ wn then
      match afterWs with
      | c :: _ => if c.isAlpha then some (s.take (3 + wn + 1)) else none
      | [] => none
    else none
  else none

/-- The twelve false-positive context patterns, in source order. -/
def fpSearchers : List (List Char → Option (List Char)) :=
  [fpWordWsDigits ("class".toList), fpWordWsDigits ("grade".toList),
   fpWordWsDigits ("page".toList), fpWordWsWord ("roll".toList) ("no".toList),
   fpLitWsStarDigits ("time:".toList), fpLitWsStarDigits ("marks:".toList),
   fpWordWsWord ("total".toList) ("marks".toList),
   fpWordWsWord ("maximum".toList) ("marks".toList),
   fpPTO, fpDateCode, fpSetLetter,
   fpWordWsWord ("code".toList) ("no".toList)]

/-- The false-positive filter: a match is dropped when some context
pattern matches within 100 characters around it and the captured digit
string occurs inside the matched text. -/
def fp_filter (text : List Char) (ms : List BMatch) : List BMatch :=
  ms.filter (fun m =>
    let context := sliceL text (m.bstart - 100) (m.bend + 100)
    !(fpSearchers.any (fun srch =>
        match searchFirstP srch context with
        | some g0 => containsL m.bds g0
        | none => false)))

/-- The position deduplication: a match within ten characters of an
already kept one is dropped. -/
def dedupByPos (seenPos : List Nat) : List BMatch → List BMatch
  | [] => []
  | m :: rest =>
    if seenPos.any (fun sp =>
        (if sp ≤ m.bstart then m.bstart - sp else sp - m.bstart) < 10) then
      dedupByPos seenPos rest
    else m :: dedupByPos (m.bstart :: seenPos) rest

/-- The number deduplication: keep the first occurrence of each captured
number, dropping number zero. -/
def dedupByNum (seen : List Nat) : List BMatch → List BMatch
  | [] => []
  | m :: rest =>
    let q := digitsToNat m.bds
    if q ∉ seen ∧ 0 < q then m :: dedupByNum (q :: seen) rest
    else dedupByNum seen rest

/-- The preprocessing of split_into_question_blocks_fixed: the OCR digit
fix then the margin-number join. -/
def qp_preprocess (t : List Char) : List Char :=
  preprocess_margin_numbers (fix_ocr_number_misrecognition t)

/-- The candidate starts retained after the battery, the stable sort by
position, the position and false-positive filters and the number
deduplication.  The argument is the preprocessed text. -/
def retained_starts (t : List Char) : List BMatch :=
  dedupByNum [] (fp_filter t (dedupByPos []
    (List.insertionSort (fun a b => a.bstart ≤ b.bstart) (batteryAll t))))

/-- The inclusive integer range of Python range(lo, hi + 1). -/
def rangeIncl (a b : Nat) : List Nat := (List.range (b + 1 - a)).map (· + a)

/-- The numbers captured by the retained starts, over preprocessed text. -/
def qpNumbers (t : List Char) : List Nat :=
  (retained_starts t).map (fun m => digitsToNat m.bds)

/-- The missing numbers between the smallest and largest retained
number. -/
def missing_of (t : List Char) : List Nat :=
  match qpNumbers t with
  | [] => []
  | l@(n0 :: _) =>
    (rangeIncl (l.foldl min n0) (l.foldl max n0)).filter (fun n => !(l.contains n))

/-- Literal digits of the interpolated missing number. -/
def spLit (dm : List Char) (s : List Char) : Option (List Char) :=
  if listStartsWith dm s then some (s.drop dm.length) else none

/-- Recovery pattern bodies for a missing number, in source order; the
capture slot is empty because the interpolated patterns have no group. -/
def rb1 (dm : List Char) (l : List Char) : Option (Nat × List Char) :=
  let (wn, r) := munchSpaces l
  (spLit dm r).bind (fun r2 =>
    (wsThenClass isDotParen r2).map (fun n => (wn + dm.length + n, [])))

def rb2 (dm : List Char) (l : List Char) : Option (Nat × List Char) :=
  let (wn, r) := munchSpaces l
  (spLit dm r).bind (fun r2 =>
    (wsThenClass (fun c => c = ',') r2).map (fun n => (wn + dm.length + n, [])))

def rb3 (dm : List Char) (l : List Char) : Option (Nat × List Char) :=
  (spLit dm l).bind (fun r =>
    (wsPlusThenClass Char.isAlpha r).map (fun n => (dm.length + n, [])))

def rb4 (dm : List Char) (l : List Char) : Option (Nat × List Char) :=
  (spLit dm l).bind (fun r =>
    (wsThenClass (fun c => c = '.' || c = ')' || c = ',') r).bind (fun n =>
      (wsPlusThenClass Char.isAlpha (r.drop n)).map (fun n2 =>
        (dm.length + n + n2, []))))

def rb5 (dm : List Char) (l : List Char) : Option (Nat × List Char) :=
  match l with
  | c :: rest =>
    if c.toLower = 'q' then
      let fromHere : List Char → Nat → Option (Nat × List Char) := fun s pre =>
        let (wn, r) := munchSpaces s
        (spLit dm r).map (fun _ => (1 + pre + wn + dm.length, []))
      (match rest with
       | '.' :: r2 =>
         match fromHere r2 1 with
         | some r => some r
         | none => fromHere rest 0
       | _ => fromHere rest 0)
    else none
  | [] => none

def rb6 (dm : List Char) (l : List Char) : Option (Nat × List Char) :=
  if listStartsWithCI ("question".toList) l then
    let r := l.drop 8
    let (wn, afterWs) := munchSpaces r
    if 1 ≤ wn then
      (spLit dm afterWs).map (fun _ => (8 + wn + dm.length, []))
    else none
  else none

def rb7 (dm : List Char) (l : List Char) : Option (Nat × List Char) :=
  (spLit dm l).bind (fun r =>
    (wsThenClass (fun c => c = ',') r).bind (fun n =>
      (wsPlusThenClass Char.isAlpha (r.drop n)).map (fun n2 =>
        (dm.length + n + n2, []))))

def rb8 (dm : List Char) (l : List Char) : Option (Nat × List Char) :=
  let (wn, r) := munchSpaces l
  (spLit dm r).bind (fun r2 =>
    (wsThenClass (fun c => c = ':' || c = '-' || c = '—' || c = '–') r2).map
      (fun n => (wn + dm.length + n, [])))

def rb9 (dm : List Char) (l : List Char) : Option (Nat × List Char) :=
  let (wn, r) := munchSpaces l
  (spLit dm r).bind (fun r2 =>
    let (wn2, afterWs2) := munchSpaces r2
    if 2 ≤ wn2 then
      match afterWs2 with
      | c :: _ => if c.isAlpha then some (wn + dm.length + wn2 + 1, []) else none
      | [] => none
    else none)

def rb10 (dm : List Char) (l : List Char) : Option (Nat × List Char) :=
  (spLit dm l).bind (fun r =>
    (wsThenClass (fun c => c = '.' || c = ')' || c = ',' || c = ':' || c = '-') r).bind
      (fun n =>
        (wsThenClass wordChar (r.drop n)).map (fun n2 =>
          (dm.length + n + n2, []))))

def rb11 (dm : List Char) (l : List Char) : Option (Nat × List Char) :=
  let (wn, r) := munchSpaces l
  (spLit dm r).bind (fun r2 =>
    match r2 with
    | c :: _ => if c.isDigit then none else some (wn + dm.length + 1, [])
    | [] => none)

/-- The eleven widened recovery scanners for one missing number, with
their anchors, in source order. -/
def recoveryScanners (dm : List Char) :
    List (Option Char → List Char → Option (Nat × List Char)) :=
  [bLineAnchor (rb1 dm), bLineAnchor (rb2 dm), bLineAnchor (rb3 dm),
   bWordBoundary (rb4 dm), (fun _ l => rb5 dm l), (fun _ l => rb6 dm l),
   bWordBoundary (rb7 dm), bLineAnchor (rb8 dm), bLineAnchor (rb9 dm),
   bWordBoundary (rb10 dm), bLineAnchor (rb11 dm)]

/-- A unified match of the splitter: battery matches carry their group-1
digits, recovery matches carry none (their patterns have no group). -/
structure QPMatch where
  qstart : Nat
  qend : Nat
  digits : Option (List Char)
deriving DecidableEq

def bToQP (m : BMatch) : QPMatch := ⟨m.bstart, m.bend, some m.bds⟩

/-- The first hit of the widened pattern set for one missing number. -/
def firstRecoveryGo (t : List Char) :
    List (Option Char → List Char → Option (Nat × List Char)) → Option QPMatch
  | [] => none
  | sc :: rest =>
    match scanAll sc t with
    | e :: _ => some ⟨e.1, e.1 + e.2.1, none⟩
    | [] => firstRecoveryGo t rest

def firstRecovery (t : List Char) (m : Nat) : Option QPMatch :=
  firstRecoveryGo t (recoveryScanners (natDigits m))

/-- The gap-recovery loop over all missing numbers. -/
def gap_recover (t : List Char) (missing : List Nat) : List QPMatch :=
  missing.filterMap (firstRecovery t)

/-- A question block of split_into_question_blocks_fixed.  Blocks from
the line-scan fallback carry no instruction or position keys; they are
modelled with none and zero. -/
structure QPBlock where
  block_number : Nat
  raw_text : List Char
  instruction : Option (List Char)
  start_pos : Nat
  end_pos : Nat
deriving DecidableEq

/-- The instruction-only vocabulary of the block filter. -/
def instructionOnlyKeywords : List (List Char) :=
  [("general instructions".toList), ("read the following instructions".toList),
   ("instructions to candidates".toList), ("note:".toList),
   ("important:".toList), ("all questions are compulsory".toList),
   ("attempt all questions".toList), ("time allowed".toList),
   ("maximum marks".toList), ("this question paper contains".toList),
   ("section".toList), ("part -".toList)]

/-- The question-starter words of the block filter, in source order
(searched with word boundaries over the lowercased block). -/
def questionStarterWords : List (List Char) :=
  [("what".toList), ("which".toList), ("who".toList), ("where".toList),
   ("when".toList), ("why".toList), ("how".toList), ("find".toList),
   ("calculate".toList), ("determine".toList), ("state".toList),
   ("define".toList), ("explain".toList), ("describe".toList),
   ("write".toList), ("name".toList), ("give".toList), ("show".toList),
   ("prove".toList), ("draw".toList), ("identify".toList)]

/-- Word-boundary search of any of the words over a text. -/
def wordBoundarySearchGo (words : List (List Char)) :
    Option Char → List Char → Bool
  | _, [] => false
  | prev, l@(c :: rest) =>
    let prevOk :=
      match prev with
      | none => true
      | some p => !wordChar p
    (prevOk && words.any (fun w =>
      listStartsWith w l &&
        (match l.drop w.length with
         | [] => true
         | c2 :: _ => !wordChar c2))) ||
    wordBoundarySearchGo words (some c) rest

def wordBoundarySearch (words : List (List Char)) (t : List Char) : Bool :=
  wordBoundarySearchGo words none t

/-- Search for a parenthesised option letter A to D, case-insensitive. -/
def mcqOptionSearch (t : List Char) : Bool :=
  anySuffix (fun l =>
    match l with
    | '(' :: c :: ')' :: _ => 'a' ≤ c.toLower && c.toLower ≤ 'd'
    | _ => false) t

/-- The head alternation of the instruction pattern, with the optional
plural s, in source order; returns the matched length. -/
def instrHead (s : List Char) : Option Nat :=
  let optPlural : List Char → Option Nat := fun base =>
    if listStartsWithCI base s then
      let n := base.length
      match s.drop n with
      | c :: _ => if c.toLower = 's' then some (n + 1) else some n
      | [] => some n
    else none
  let fixedLit : List Char → Option Nat := fun base =>
    if listStartsWithCI base s then some base.length else none
  match optPlural ("for question".toList) with
  | some n => some n
  | none =>
    match optPlural ("question".toList) with
    | some n => some n
    | none =>
      match fixedLit ("read the following".toList) with
      | some n => some n
      | none =>
        match fixedLit ("refer to".toList) with
        | some n => some n
        | none => fixedLit ("based on".toList)

/-- The instruction pattern: the head alternation then up to 150
non-newline characters, greedy; returns the matched text. -/
def instrTryAt (s : List Char) : Option (List Char) :=
  (instrHead s).map (fun n =>
    let tail := ((s.drop n).takeWhile (fun c => c ≠ '\n')).take 150
    s.take (n + tail.length))

/-- The scoped-range probe inside an instruction: digits, a run of dash,
en-dash, t or o characters, digits. -/
def rangeTryAt (s : List Char) : Option (Nat × Nat) :=
  (munchDigits s).bind (fun d1 =>
    let (_, r1) := munchSpaces d1.2.2
    let (cn, r2) := munchWhile (fun c => c = '-' || c = '–' || c = 't' || c = 'o') r1
    if 1 ≤ cn then
      let (_, r3) := munchSpaces r2
      (munchDigits r3).map (fun d2 => (digitsToNat d1.2.1, digitsToNat d2.2.1))
    else none)

/-- The instruction lookup of the block loop: search the 300 characters
before the block start; a scoped instruction applies when the block
number lies in its range, an unscoped following-or-refer-to instruction
always applies. -/
def qpInstruction (text : List Char) (start : Nat) (q_num : Nat) :
    Option (List Char) :=
  let pre := sliceL text (start - 300) start
  match searchFirstP instrTryAt pre with
  | none => none
  | some g0 =>
    let instr := pyStrip g0
    match searchFirstP rangeTryAt instr with
    | some r => if r.1 ≤ q_num && q_num ≤ r.2 then some instr else none
    | none =>
      if containsL ("following".toList) (toLowerL instr) ||
         containsL ("refer to".toList) (toLowerL instr) then some instr
      else none

/-- One block of the materialization loop: group 1 of the start (an
error for groupless recovery matches, as in the source), then the length,
alphabetic-content, instruction-only and shortness filters, then the
instruction lookup. -/
def matOne (text : List Char) (m : QPMatch) (endPos : Nat) :
    Except Unit (List QPBlock) :=
  match m.digits with
  | none => .error ()
  | some ds =>
    let q_num := digitsToNat ds
    let q_text := pyStrip (sliceL text m.qstart endPos)
    if q_text.length < 5 then .ok []
    else if !(q_text.any Char.isAlpha) then .ok []
    else
      let lower := toLowerL q_text
      let is_instruction_only :=
        instructionOnlyKeywords.any (fun k => containsL k lower)
      let is_likely :=
        containsL [('?' : Char)] q_text || mcqOptionSearch q_text ||
          wordBoundarySearch questionStarterWords lower
      if is_instruction_only && !is_likely then .ok []
      else if q_text.length < 30 && !is_likely then .ok []
      else .ok [⟨q_num, q_text, qpInstruction text m.qstart q_num, m.qstart, endPos⟩]

/-- The block loop: each start runs to the next start or the end of the
text. -/
def materializeGo (text : List Char) : List QPMatch → Except Unit (List QPBlock)
  | [] => .ok []
  | [m] => matOne text m text.length
  | m :: m2 :: rest =>
    match matOne text m m2.qstart with
    | .error e => .error e
    | .ok b1 =>
      match materializeGo text (m2 :: rest) with
      | .error e => .error e
      | .ok b2 => .ok (b1 ++ b2)

/-- The final sort of the blocks by block number (a stable sort, like
Python list.sort). -/
def sortBlocks (bs : List QPBlock) : List QPBlock :=
  List.insertionSort (fun a b => a.block_number ≤ b.block_number) bs

/-- The line probe of the aggressive line-scan fallback: digits, optional
whitespace, dot or close paren; returns the digit chars. -/
def lineScanStart (ls : List Char) : Option (List Char) :=
  (munchDigits ls).bind (fun d =>
    match d.2.2.dropWhile pySpace with
    | c :: _ => if c = '.' || c = ')' then some d.2.1 else none
    | [] => none)

/-- The aggressive line-scan fallback: for each matching line, collect up
to twenty lines, cut at the next question line, keep blocks with more
than three characters of which some are alphabetic. -/
def lineScanGo : List (List Char) → List QPBlock
  | [] => []
  | ln :: rest =>
    match lineScanStart (pyStrip ln) with
    | some ds =>
      let q_lines_all := (ln :: rest).take 20
      let q_lines :=
        ln :: ((q_lines_all.drop 1).takeWhile
          (fun l => !(lineScanStart (pyStrip l)).isSome))
      let q_text := pyStrip (joinNl q_lines)
      if 3 < q_text.length && q_text.any Char.isAlpha then
        ⟨digitsToNat ds, q_text, none, 0, 0⟩ :: lineScanGo rest
      else lineScanGo rest
    | none => lineScanGo rest

def line_scan_fallback (t : List Char) : List QPBlock :=
  sortBlocks (lineScanGo (splitNl t))

/-- question_parser.split_into_question_blocks_fixed: OCR and margin
preprocessing, the battery with its three filters, gap recovery under the
missing-count guard, block materialization and the sort by number.  When
recovery finds a match the source recomputes the question numbers with
group(1) over the spliced list, which raises IndexError on the groupless
recovery matches; that raise is the error value. -/
def split_into_question_blocks_fixed (text0 : List Char) :
    Except Unit (List QPBlock) :=
  let text := qp_preprocess text0
  let starts := retained_starts text
  if starts.isEmpty then .ok (line_scan_fallback text)
  else
    let missing := missing_of text
    if !missing.isEmpty && missing.length < 30 then
      let recovered := gap_recover text missing
      if !recovered.isEmpty then .error ()
      else (materializeGo text (starts.map bToQP)).map sortBlocks
    else (materializeGo text (starts.map bToQP)).map sortBlocks

/-- The recovery list the splitter computes, over preprocessed text:
empty unless the missing-count guard holds. -/
def recovered_of (t : List Char) : List QPMatch :=
  let missing := missing_of t
  if !missing.isEmpty && missing.length < 30 then gap_recover t missing else []

/-- The blocks of a successful split, as an Option for decidable
statements. -/
def split_blocks? (t : List Char) : Option (List QPBlock) :=
  (split_into_question_blocks_fixed t).toOption

/-- The block numbers of a successful split. -/
def split_block_numbers (t : List Char) : Option (List Nat) :=
  (split_blocks? t).map (List.map QPBlock.block_number)

-- ===== concrete inputs used by the claim theorems =====

/-- A three-page textbook whose first page is a table of contents listing
chapters that start on pages 2 and 3. -/
def c2pages : List Page :=
  [⟨1, ("Contents\n1. Introduction to Physics 2\n2. Advanced Wave Topics 3".toList)⟩,
   ⟨2, ("Basics of motion here.".toList)⟩,
   ⟨3, ("More advanced topics now.".toList)⟩]

/-- The multiple-choice block of the option-versus-sub-part scenario. -/
def c4block : List Char := ("(a) Red (b) Blue (c) Green (d) Yellow".toList)

/-- A paper text in the bracketed-number format, which only the
line-by-line fallback of detect_questions recognises, with a repeated
number. -/
def c5text : List Char :=
  ("[1] State inertia with a detailed account\n[1] State force with a detailed account".toList)

/-- A plain one-question paper recognised by the main pattern. -/
def c5simple : List Char := ("1. Define the metre unit properly now".toList)

/-- The gap-recovery scenario: numerals one to ten in order with the
fifth rewritten as a dash form. -/
def c6text : List Char :=
  ("1. Find the first thing\n2. Find the second thing\n3. Find the third thing\n4. Find the fourth thing\n5 -Find the fifth thing\n6. Find the sixth thing\n7. Find the seventh thing\n8. Find the eighth thing\n9. Find the ninth thing\n10. Find the tenth thing".toList)

/-- A paper whose third numeral only appears in an em-dash form that none
of the battery patterns but one of the widened recovery patterns hits. -/
def emdashText : List Char :=
  ("1. Find the value kindly\n2. Find more values kindly\n3 —Evaluate something good\n4. Find the last value kindly".toList)

/-- A one-page document with no chapter structure at all. -/
def c7page : List Page := [⟨1, ("hello world basics".toList)⟩]

/-- A two-question paper for the block-invariant witness. -/
def c10text : List Char := ("1. Define things now\n2. Explain things now".toList)

/-- Four retrieval candidates with distinct titles. -/
def c1cands : List Candidate :=
  [⟨1, ("Alpha Waves".toList), 1, 10, 90, ("p1".toList), []⟩,
   ⟨2, ("Beta Rays".toList), 11, 20, 80, ("p2".toList), []⟩,
   ⟨3, ("Gamma Decay".toList), 21, 30, 70, ("p3".toList), []⟩,
   ⟨4, ("Delta Works".toList), 31, 40, 60, ("p4".toList), []⟩]

/-- A parsed completion naming the fourth candidate, which the prompt
never offered (only the top three are shown). -/
def c1fourth : LLMResult := ⟨("Delta Works".toList), 95, ("matches the fourth".toList)⟩

/-- A parsed completion naming a title absent from every candidate. -/
def c1absent : LLMResult := ⟨("Omega Fields".toList), 50, ("made up".toList)⟩

/-- A one-chapter index and a zero-distance retrieval result. -/
def c8chapters : List ChapterMeta :=
  [⟨3, ("Light and Optics".toList), 1, 12, ("light preview".toList)⟩]

def c8results : List (Nat × Rat) := [(0, 0)]

-- ===== claim theorems =====

/-- C9.  The TOC-based chapter resolver run twice: the source functions
read nothing but their arguments (no module state, no randomness), so the
second run is the same pure function as the first and the embedding makes
the idempotence definitional. -/
def toc_chapter_resolver (pages : List Page) : List Chapter :=
  map_toc_to_content (extract_from_table_of_contents pages) pages

/-- The second run of the resolver, written as its own definition. -/
def toc_chapter_resolver_rerun (pages : List Page) : List Chapter :=
  map_toc_to_content (extract_from_table_of_contents pages) pages

/-- C9: running extract_from_table_of_contents followed by
map_toc_to_content twice on the identical page sequence yields identical
chapter lists (same chapter_number, title, page_start, page_end and
content values). -/
theorem C9_toc_resolver_deterministic :
    ∀ pages : List Page, toc_chapter_resolver_rerun pages = toc_chapter_resolver pages :=
  fun _ => rfl

/-- C9 witness: the two runs on the concrete three-page book agree. -/
theorem C9_toc_resolver_deterministic_witness :
    toc_chapter_resolver_rerun c2pages = toc_chapter_resolver c2pages :=
  C9_toc_resolver_deterministic c2pages

/-- C3: the delay guard of map_questions_to_chapters evaluated as the code
executes it.  The first conjunct shows the first question of a run is
delayed whenever the last retrieved index is nonzero (the claim and the
source comment say the first call has no preceding delay); the second
shows a later question is not delayed when its last retrieved index is
zero (the claim says every later call is delayed).  The cause is the
shadowing of idx by the candidate loop, and even without it
enumerate(questions, 1) starts idx at one, so the guard idx greater than
zero would also delay the first call. -/
theorem C3_delay_guard_behaviour :
    llm_delay_guard 1 [2, 0, 1] = true ∧ llm_delay_guard 3 [0] = false := by
  decide

/-- C4: the option-versus-sub-part scenario block.  The letter pattern
classifies its four short, near-equal spans as MCQ options, but
extract_sub_parts then continues to the roman-numeral pattern, whose
class matches the markers c and d, and the block is split into
sub-questions 7c and 7d after all — against the spec scenario, which
requires no split. -/
theorem C4_option_block_is_split :
    is_mcq_options (sub_part_scan1 c4block) = true ∧
    (extract_sub_parts ("7".toList) c4block).map PyQuestion.question_number =
      ["7c".toList, "7d".toList] := by
  decide

/-- C1 counterexample: a parsed response naming the fourth retrieved
candidate, a title never offered in the prompt (only the top three are),
is not discarded — the validation list is all retrieved candidates — and
the question's output chapter is the fourth candidate, not the top
retrieval candidate. -/
theorem C1_counterexample :
    (((c1cands.take 3).map Candidate.chapter_title).contains
        c1fourth.chapter_title = false) ∧
    validate_llm_result (some c1fourth) c1cands = some c1fourth ∧
    (question_chapters c1cands (some c1fourth)).map Candidate.chapter_number = [4] ∧
    (c1cands.take 1).map Candidate.chapter_number = [1] := by
  decide

/-- C1 as amended: when the parsed response names a title absent from the
titles of every retrieved candidate (the validation set is the full
candidate list, of which only three are offered in the prompt), the
response is discarded and the output equals the top retrieval
candidate. -/
theorem C1_refinement_grounding (r : LLMResult) (cands : List Candidate)
    (hne : cands ≠ [])
    (h : (cands.map Candidate.chapter_title).contains r.chapter_title = false) :
    validate_llm_result (some r) cands = none ∧
    question_chapters cands (some r) = cands.take 1 := by
  have hmem : r.chapter_title ∉ cands.map Candidate.chapter_title := by
    have h' : decide (r.chapter_title ∈ cands.map Candidate.chapter_title) = false := by
      simpa [List.contains, List.elem_eq_mem] using h
    exact of_decide_eq_false h'
  have hv : validate_llm_result (some r) cands = none := by
    simp [validate_llm_result, hmem]
  refine ⟨hv, ?_⟩
  rw [question_chapters, hv]
  cases cands with
  | nil => exact absurd rfl hne
  | cons c0 rest => rfl

/-- C1 witness: a concrete absent title is discarded and the top
candidate is returned. -/
theorem C1_refinement_grounding_witness :
    (c1cands ≠ [] ∧
      (c1cands.map Candidate.chapter_title).contains c1absent.chapter_title = false) ∧
    (validate_llm_result (some c1absent) c1cands = none ∧
      question_chapters c1cands (some c1absent) = c1cands.take 1) :=
  ⟨⟨by decide, by decide⟩,
    C1_refinement_grounding c1absent c1cands (by decide) (by decide)⟩

/-- The deduplication stage never emits a number it has seen and its
output numbers are pairwise distinct. -/
theorem dedupQuestionsGo_nodup :
    ∀ (l : List PyQuestion) (seen : List (List Char)),
      (∀ n ∈ (dedupQuestionsGo seen l).map PyQuestion.question_number, n ∉ seen) ∧
      ((dedupQuestionsGo seen l).map PyQuestion.question_number).Nodup := by
  intro l
  induction l with
  | nil => intro seen; simp [dedupQuestionsGo]
  | cons q rest ih =>
    intro seen
    by_cases hc : q.question_number ∈ seen
    · simpa [dedupQuestionsGo, hc] using ih seen
    · have ihq := ih (q.question_number :: seen)
      constructor
      · intro n hn
        simp only [dedupQuestionsGo, if_neg hc, List.map_cons, List.mem_cons] at hn
        rcases hn with hn | hn
        · exact hn ▸ hc
        · have := ihq.1 n hn
          intro hs
          exact this (List.mem_cons_of_mem _ hs)
      · simp only [dedupQuestionsGo, if_neg hc, List.map_cons, List.nodup_cons]
        refine ⟨fun hm => ?_, ihq.2⟩
        exact (ihq.1 _ hm) (List.mem_cons_self _ _)

/-- C5 counterexample: a paper in the bracketed format is only picked up
by the line-by-line fallback, which runs after duplicate removal, so the
returned list holds two questions both numbered one. -/
theorem C5_counterexample :
    (detect_questions c5text).map PyQuestion.question_number =
      ["1".toList, "1".toList] ∧
    ¬ ((detect_questions c5text).map PyQuestion.question_number).Nodup := by
  decide

/-- C5 as amended: whenever the pattern strategies (main or alternative)
yield at least one question, the deduplicated list is what
detect_questions returns and no two of its entries share
question_number; the line-by-line fallback path can emit duplicates. -/
theorem C5_question_uniqueness (t : List Char)
    (h : dedupQuestions (strategyQuestions t) ≠ []) :
    ((detect_questions t).map PyQuestion.question_number).Nodup := by
  have hret : detect_questions t = dedupQuestions (strategyQuestions t) := by
    have hne : (dedupQuestions (strategyQuestions t)).isEmpty = false := by
      cases hq : dedupQuestions (strategyQuestions t) with
      | nil => exact absurd hq h
      | cons a l => rfl
    simp [detect_questions, hne]
  rw [hret, dedupQuestions]
  exact (dedupQuestionsGo_nodup (strategyQuestions t) []).2

/-- C5 witness: a one-question paper goes through the pattern strategy
and its numbers are distinct. -/
theorem C5_question_uniqueness_witness :
    dedupQuestions (strategyQuestions c5simple) ≠ [] ∧
    ((detect_questions c5simple).map PyQuestion.question_number).Nodup :=
  ⟨by decide, C5_question_uniqueness c5simple (by decide)⟩

/-- Mapping an empty TOC yields no chapters. -/
theorem mapTocGo_nil (pages : List Page) : mapTocGo pages [] = [] := rfl

/-- The ten-page fallback on a non-empty page list is non-empty. -/
theorem fallback_chunks_ne_nil (pages : List Page) (h : pages ≠ []) :
    fallback_chunks pages ≠ [] := by
  cases pages with
  | nil => exact absurd rfl h
  | cons p rest => simp [fallback_chunks, fallback_chunks_go]

/-- A list with isEmpty false is not nil. -/
theorem ne_nil_of_isEmpty_eq_false {α : Type} {l : List α}
    (h : l.isEmpty = false) : l ≠ [] := by
  cases l with
  | nil => simp at h
  | cons a t => simp

/-- C7: the chapter boundary resolver is total (the embedding is a total
function; every partial Python operation on this path is guarded) and
degrades to a usable result: for a non-empty page sequence
detect_chapters and extract_chapters_from_textbook both return at least
one chapter; when the TOC mapping, the heading scan and the known
template (more than five chapters required) all yield nothing,
detect_chapters is exactly the uniform ten-page Section partition; and
whenever detect_chapters yields nothing, extract_chapters_from_textbook
falls back to the single Complete Textbook chapter. -/
theorem C7_resolver_never_empty (pages : List Page) :
    (pages ≠ [] →
      detect_chapters pages ≠ [] ∧ extract_chapters_result pages ≠ []) ∧
    (map_toc_to_content (extract_from_table_of_contents pages) pages = [] →
      heading_scan pages = [] →
      ((try_manual_chapter_mapping pages).map List.length).getD 0 ≤ 5 →
      detect_chapters pages = fallback_chunks pages) ∧
    (detect_chapters pages = [] →
      extract_chapters_result pages =
        [⟨1, ("Complete Textbook".toList), 1, (pages.length : Int),
          joinSpace (pages.map Page.text)⟩]) := by
  refine ⟨?_, ?_, ?_⟩
  · intro hne
    have hdet : detect_chapters pages ≠ [] := by
      rw [detect_chapters]
      cases h1 : (toc_tier pages).isEmpty with
      | false =>
        simp only [h1, Bool.false_eq_true, if_false]
        exact ne_nil_of_isEmpty_eq_false h1
      | true =>
        simp only [h1, if_true]
        cases hm : manual_tier pages with
        | some m =>
          have hm5 : 5 < m.length := by
            rw [manual_tier] at hm
            cases hmm : try_manual_chapter_mapping pages with
            | some m0 =>
              rw [hmm] at hm
              dsimp only at hm
              by_cases h5 : 5 < m0.length
              · rw [if_pos h5] at hm
                cases hm
                exact h5
              · rw [if_neg h5] at hm
                cases hm
            | none =>
              rw [hmm] at hm
              cases hm
          intro habs
          dsimp only at habs
          rw [habs] at hm5
          simp at hm5
        | none =>
          rw [heading_or_chunks]
          cases hh : (heading_scan pages).isEmpty with
          | true =>
            simp only [hh, if_true]
            exact fallback_chunks_ne_nil pages hne
          | false =>
            simp only [hh, Bool.false_eq_true, if_false]
            exact ne_nil_of_isEmpty_eq_false hh
    refine ⟨hdet, ?_⟩
    rw [extract_chapters_result]
    have h0 : (detect_chapters pages).isEmpty = false := by
      cases hd : detect_chapters pages with
      | nil => exact absurd hd hdet
      | cons a l => rfl
    simp only [h0, Bool.false_eq_true, if_false]
    exact hdet
  · intro h1 h2 h3
    have htoc : toc_tier pages = [] := by
      rw [toc_tier]
      cases he : (extract_from_table_of_contents pages).isEmpty with
      | true => simp only [he, if_true]
      | false => simp only [he, Bool.false_eq_true, if_false]; exact h1
    have hman : manual_tier pages = none := by
      rw [manual_tier]
      cases hmm : try_manual_chapter_mapping pages with
      | some m0 =>
        have hle : ¬ 5 < m0.length := by
          rw [hmm] at h3
          simp at h3
          omega
        simp [hle]
      | none => rfl
    rw [detect_chapters, htoc, hman]
    simp only [List.isEmpty_nil, if_true]
    rw [heading_or_chunks, h2]
    simp
  · intro hd
    rw [extract_chapters_result, hd]
    simp

/-- C7 witness: a one-page book with no structural signal goes through
every tier down to the ten-page fallback and still yields a chapter. -/
theorem C7_resolver_never_empty_witness :
    (c7page ≠ [] ∧
      map_toc_to_content (extract_from_table_of_contents c7page) c7page = [] ∧
      heading_scan c7page = [] ∧
      ((try_manual_chapter_mapping c7page).map List.length).getD 0 ≤ 5) ∧
    ((detect_chapters c7page ≠ [] ∧ extract_chapters_result c7page ≠ []) ∧
      detect_chapters c7page = fallback_chunks c7page) :=
  ⟨⟨by decide, by decide, by decide, by decide⟩,
    ⟨(C7_resolver_never_empty c7page).1 (by decide),
      (C7_resolver_never_empty c7page).2.1 (by decide) (by decide) (by decide)⟩⟩

/-- The displayed similarity score is bounded: a nonnegative distance maps
into the closed interval from zero to one hundred. -/
theorem similarity_score_of_bounds (d : Rat) (hd : 0 ≤ d) :
    0 ≤ similarity_score_of d ∧ similarity_score_of d ≤ 100 := by
  rw [similarity_score_of, pyRound2]
  set x : Rat := max 0 (100 - d * 10) with hx
  have hx0 : 0 ≤ x := le_max_left _ _
  have hx1 : x ≤ 100 := by
    apply max_le
    · norm_num
    · have : 0 ≤ d * 10 := by positivity
      linarith
  have hy0 : (0 : Rat) ≤ x * 100 := by positivity
  have hy1 : x * 100 ≤ 10000 := by nlinarith
  have hr0 : (0 : Int) ≤ round (x * 100) := by
    rw [round_eq]
    apply Int.floor_nonneg.mpr
    linarith
  have hr1 : round (x * 100) ≤ 10000 := by
    rw [round_eq]
    have : (⌊x * 100 + 1 / 2⌋ : Int) < 10001 := by
      apply Int.floor_lt.mpr
      push_cast
      linarith
    omega
  constructor
  · apply div_nonneg _ (by norm_num)
    exact_mod_cast hr0
  · rw [div_le_iff₀ (by norm_num : (0 : Rat) < 100)]
    calc ((round (x * 100) : Int) : Rat) ≤ ((10000 : Int) : Rat) := by exact_mod_cast hr1
    _ = 100 * 100 := by norm_num

/-- A filterMap whose function succeeds on every element keeps the
length. -/
theorem filterMap_length_of_isSome {α β : Type} (f : α → Option β) :
    ∀ l : List α, (∀ a ∈ l, (f a).isSome) → (l.filterMap f).length = l.length := by
  intro l
  induction l with
  | nil => intro _; rfl
  | cons a rest ih =>
    intro h
    have ha := h a (List.mem_cons_self a rest)
    cases hf : f a with
    | none => rw [hf] at ha; simp at ha
    | some b =>
      rw [List.filterMap_cons, hf]
      simp only [List.length_cons]
      rw [ih (fun x hx => h x (List.mem_cons_of_mem a hx))]

/-- C8: for every query, exactly min(5, number of indexed chapters)
candidates are produced when the search returns that many in-range
results, and every candidate's similarity_score is the rounded
max(0, 100 - 10 d) of its retrieved distance, hence always within zero
and one hundred.  The retrieved distances of the flat L2 index are
nonnegative, which the hypothesis records. -/
theorem C8_retrieval_scoring (chapters : List ChapterMeta)
    (results : List (Nat × Rat))
    (hlen : results.length = kQuery chapters.length)
    (hvalid : ∀ p ∈ results, p.1 < chapters.length ∧ 0 ≤ p.2) :
    (build_candidates chapters results).length = kQuery chapters.length ∧
    ∀ c ∈ build_candidates chapters results,
      (∃ p ∈ results, c.similarity_score = similarity_score_of p.2 ∧ 0 ≤ p.2) ∧
      0 ≤ c.similarity_score ∧ c.similarity_score ≤ 100 := by
  constructor
  · rw [build_candidates, ← hlen]
    apply filterMap_length_of_isSome
    intro p hp
    have h1 := (hvalid p hp).1
    have : (chapters.get? p.1).isSome := by
      rw [List.get?_eq_get h1]
      rfl
    cases hg : chapters.get? p.1 with
    | none => rw [hg] at this; simp at this
    | some ch => simp [hg]
  · intro c hc
    rw [build_candidates] at hc
    rcases List.mem_filterMap.mp hc with ⟨p, hp, hmap⟩
    cases hg : chapters.get? p.1 with
    | none => rw [hg] at hmap; simp at hmap
    | some ch =>
      rw [hg] at hmap
      have hmap' : (⟨ch.chapter_number, ch.chapter_title, ch.page_start,
          ch.page_end, similarity_score_of p.2, ch.content.take 1000, []⟩ :
          Candidate) = c := by
        simpa using hmap
      have hscore : c.similarity_score = similarity_score_of p.2 := by
        rw [← hmap']
      have hd := (hvalid p hp).2
      refine ⟨⟨p, hp, hscore, hd⟩, ?_⟩
      rw [hscore]
      exact similarity_score_of_bounds p.2 hd

/-- C8 witness: one indexed chapter, one retrieved result at distance
zero. -/
theorem C8_retrieval_scoring_witness :
    (c8results.length = kQuery c8chapters.length ∧
      ∀ p ∈ c8results, p.1 < c8chapters.length ∧ 0 ≤ p.2) ∧
    ((build_candidates c8chapters c8results).length = kQuery c8chapters.length ∧
      ∀ c ∈ build_candidates c8chapters c8results,
        (∃ p ∈ c8results, c.similarity_score = similarity_score_of p.2 ∧ 0 ≤ p.2) ∧
        0 ≤ c.similarity_score ∧ c.similarity_score ≤ 100) :=
  ⟨⟨by decide, by decide⟩,
    C8_retrieval_scoring c8chapters c8results (by decide) (by decide)⟩

/-- C2 counterexample: on the concrete three-page book the TOC strategy
wins and the first chapter starts at page 2, the first TOC-listed start
page, not at page 1 as the claim requires. -/
theorem C2_counterexample :
    c2pages ≠ [] ∧
    (detect_chapters c2pages).map (fun c => (c.page_start, c.page_end)) =
      [(2, 2), (3, 3)] ∧
    (detect_chapters c2pages).head?.map Chapter.page_start ≠ some 1 := by
  decide

/-- A TOC entry whose start page is realised by some page and bounded by
the entry's end page materialises as exactly one chapter. -/
theorem mapTocOne_singleton (pages : List Page) (e : TocEntry) (pend : Int)
    (hex : ∃ p ∈ pages, p.page_number = e.page_start)
    (hpend : e.page_start ≤ pend) :
    ∃ content, mapTocOne pages e pend =
      [⟨e.chapter_number, e.title, e.page_start, pend, content⟩] := by
  rcases hex with ⟨p, hp, hpn⟩
  have hmem : p ∈ pages.filter (fun q =>
      decide (e.page_start ≤ q.page_number) && decide (q.page_number ≤ pend)) := by
    apply List.mem_filter.mpr
    refine ⟨hp, ?_⟩
    rw [hpn]
    simp [hpend]
  have hne : ((pages.filter (fun q =>
      decide (e.page_start ≤ q.page_number) && decide (q.page_number ≤ pend))).map
        Page.text).isEmpty = false := by
    cases hfe : pages.filter (fun q =>
        decide (e.page_start ≤ q.page_number) && decide (q.page_number ≤ pend)) with
    | nil => rw [hfe] at hmem; simp at hmem
    | cons a l => simp [hfe]
  rw [mapTocOne]
  simp only [hne, Bool.false_eq_true, if_false]
  exact ⟨_, rfl⟩

/-- The indexed loop of map_toc_to_content under strictly increasing,
in-range start pages: the chapter list is non-empty, starts at the first
entry's start page, ends at the page count, and adjacent chapters tile
the range. -/
theorem mapTocGo_chain (pages : List Page)
    (hex : ∀ k : Int, 1 ≤ k → k ≤ (pages.length : Int) →
      ∃ p ∈ pages, p.page_number = k) :
    ∀ toc : List TocEntry, toc ≠ [] →
      List.Chain' (fun a b => a.page_start < b.page_start) toc →
      (∀ e ∈ toc, 1 ≤ e.page_start ∧ e.page_start ≤ (pages.length : Int)) →
      mapTocGo pages toc ≠ [] ∧
      (mapTocGo pages toc).head?.map Chapter.page_start =
        toc.head?.map TocEntry.page_start ∧
      (mapTocGo pages toc).getLast?.map Chapter.page_end =
        some (pages.length : Int) ∧
      List.Chain' (fun a b => a.page_end + 1 = b.page_start) (mapTocGo pages toc) := by
  intro toc
  induction toc with
  | nil => intro h; exact absurd rfl h
  | cons e rest ih =>
    intro _ hchain hbound
    have hbe := hbound e (List.mem_cons_self e rest)
    cases rest with
    | nil =>
      have hone := mapTocOne_singleton pages e (pages.length : Int)
        (hex e.page_start hbe.1 hbe.2) hbe.2
      rcases hone with ⟨content, heq⟩
      rw [show mapTocGo pages [e] = mapTocOne pages e (pages.length : Int) from rfl,
        heq]
      refine ⟨by simp, by simp, by simp, by simp⟩
    | cons e2 rest2 =>
      have hlt : e.page_start < e2.page_start :=
        (List.chain'_cons.mp hchain).1
      have hchain2 : List.Chain' (fun a b => a.page_start < b.page_start) (e2 :: rest2) :=
        (List.chain'_cons.mp hchain).2
      have hbound2 : ∀ x ∈ e2 :: rest2,
          1 ≤ x.page_start ∧ x.page_start ≤ (pages.length : Int) :=
        fun x hx => hbound x (List.mem_cons_of_mem e hx)
      have ihr := ih (by simp) hchain2 hbound2
      have hpend : e.page_start ≤ e2.page_start - 1 := by omega
      have hone := mapTocOne_singleton pages e (e2.page_start - 1)
        (hex e.page_start hbe.1 hbe.2) hpend
      rcases hone with ⟨content, heq⟩
      have hgo : mapTocGo pages (e :: e2 :: rest2) =
          (⟨e.chapter_number, e.title, e.page_start, e2.page_start - 1, content⟩ : Chapter)
            :: mapTocGo pages (e2 :: rest2) := by
        rw [show mapTocGo pages (e :: e2 :: rest2) =
          mapTocOne pages e (e2.page_start - 1) ++ mapTocGo pages (e2 :: rest2) from rfl,
          heq]
        rfl
      rw [hgo]
      rcases ihr with ⟨ihne, ihhead, ihlast, ihchain⟩
      cases htail : mapTocGo pages (e2 :: rest2) with
      | nil => exact absurd htail ihne
      | cons th tt =>
        rw [htail] at ihhead ihlast ihchain
        refine ⟨by simp, by simp, ?_, ?_⟩
        · rw [List.getLast?_cons_cons]
          exact ihlast
        · apply List.chain'_cons.mpr
          refine ⟨?_, ihchain⟩
          have : th.page_start = e2.page_start := by
            simp only [List.head?_cons, Option.map_some] at ihhead
            injection ihhead
          simp only [this]
          omega

/-- C2 as amended: the unqualified first-page property fails (the first
chapter starts where the winning strategy says, for the TOC strategy the
first listed start page, which need not be 1).  What holds on the TOC
strategy: when the pages are numbered consecutively from one and the
extracted TOC entries have strictly increasing start pages within the
page range, detect_chapters returns the TOC-mapped chapters, the list is
non-empty, its first chapter starts at the first TOC entry's start page,
its last chapter ends at the last page number, and every adjacent pair
satisfies page_end + 1 = next page_start. -/
theorem C2_chapter_coverage (pages : List Page) (toc : List TocEntry)
    (hpages : pages.map Page.page_number =
      (List.range pages.length).map (fun i : Nat => (i : Int) + 1))
    (htoc : extract_from_table_of_contents pages = toc)
    (hne : toc ≠ [])
    (hmono : List.Chain' (fun a b => a.page_start < b.page_start) toc)
    (hbound : ∀ e ∈ toc, 1 ≤ e.page_start ∧ e.page_start ≤ (pages.length : Int)) :
    detect_chapters pages = map_toc_to_content toc pages ∧
    map_toc_to_content toc pages ≠ [] ∧
    (map_toc_to_content toc pages).head?.map Chapter.page_start =
      toc.head?.map TocEntry.page_start ∧
    (map_toc_to_content toc pages).getLast?.map Chapter.page_end =
      some (pages.length : Int) ∧
    List.Chain' (fun a b => a.page_end + 1 = b.page_start)
      (map_toc_to_content toc pages) := by
  have hex : ∀ k : Int, 1 ≤ k → k ≤ (pages.length : Int) →
      ∃ p ∈ pages, p.page_number = k := by
    intro k hk1 hk2
    have hk' : (k - 1).toNat < pages.length := by omega
    have hki : (((k - 1).toNat : Int)) = k - 1 :=
      Int.toNat_of_nonneg (by omega : (0 : Int) ≤ k - 1)
    have h0 : (pages.map Page.page_number).get? ((k - 1).toNat) =
        (((List.range pages.length).map (fun j : Nat => (j : Int) + 1)).get?
          ((k - 1).toNat)) := by rw [hpages]
    rw [List.get?_map, List.get?_map, List.get?_range hk'] at h0
    cases hg : pages.get? ((k - 1).toNat) with
    | none => rw [hg] at h0; simp at h0
    | some p =>
      rw [hg] at h0
      have hpn : p.page_number = (((k - 1).toNat : Int)) + 1 := by
        simpa using h0
      exact ⟨p, List.get?_mem hg, by rw [hpn, hki]; ring⟩
  have hmain := mapTocGo_chain pages hex toc hne hmono hbound
  have hmapeq : map_toc_to_content toc pages = mapTocGo pages toc := rfl
  have htocempty : toc.isEmpty = false := by
    cases toc with
    | nil => exact absurd rfl hne
    | cons a l => rfl
  have htier : toc_tier pages = map_toc_to_content toc pages := by
    rw [toc_tier, htoc]
    simp [htocempty]
  have hmapempty : (map_toc_to_content toc pages).isEmpty = false := by
    cases hm : map_toc_to_content toc pages with
    | nil => rw [hmapeq] at hm; exact absurd hm hmain.1
    | cons a l => rfl
  have hdetect : detect_chapters pages = map_toc_to_content toc pages := by
    rw [detect_chapters, htier]
    simp [hmapempty]
  rw [hmapeq]
  exact ⟨by rw [hdetect, hmapeq], hmain.1, hmain.2.1, hmain.2.2.1, hmain.2.2.2⟩

/-- C2 witness: the concrete three-page book satisfies the amended
statement with its extracted two-entry TOC. -/
theorem C2_chapter_coverage_witness :
    (c2pages.map Page.page_number =
        (List.range c2pages.length).map (fun i : Nat => (i : Int) + 1) ∧
      extract_from_table_of_contents c2pages =
        [⟨1, ("Introduction to Physics".toList), 2⟩,
         ⟨2, ("Advanced Wave Topics".toList), 3⟩]) ∧
    (detect_chapters c2pages =
        map_toc_to_content
          [⟨1, ("Introduction to Physics".toList), 2⟩,
           ⟨2, ("Advanced Wave Topics".toList), 3⟩] c2pages ∧
      map_toc_to_content
          [⟨1, ("Introduction to Physics".toList), 2⟩,
           ⟨2, ("Advanced Wave Topics".toList), 3⟩] c2pages ≠ [] ∧
      (map_toc_to_content
          [⟨1, ("Introduction to Physics".toList), 2⟩,
           ⟨2, ("Advanced Wave Topics".toList), 3⟩] c2pages).head?.map
            Chapter.page_start =
        ([⟨1, ("Introduction to Physics".toList), 2⟩,
          (⟨2, ("Advanced Wave Topics".toList), 3⟩ : TocEntry)].head?.map
            TocEntry.page_start) ∧
      (map_toc_to_content
          [⟨1, ("Introduction to Physics".toList), 2⟩,
           ⟨2, ("Advanced Wave Topics".toList), 3⟩] c2pages).getLast?.map
            Chapter.page_end = some (c2pages.length : Int) ∧
      List.Chain' (fun a b => a.page_end + 1 = b.page_start)
        (map_toc_to_content
          [⟨1, ("Introduction to Physics".toList), 2⟩,
           ⟨2, ("Advanced Wave Topics".toList), 3⟩] c2pages)) :=
  ⟨⟨by decide, by decide⟩,
    C2_chapter_coverage c2pages
      [⟨1, ("Introduction to Physics".toList), 2⟩,
       ⟨2, ("Advanced Wave Topics".toList), 3⟩]
      (by decide) (by decide) (by decide)
      (List.chain'_cons.mpr ⟨by decide, List.chain'_singleton _⟩)
      (by decide)⟩

/-- C6: gap recovery is guarded by the missing-count threshold — the
recovery list is non-empty only when some numbers are missing and fewer
than thirty are — and on the scenario text, numerals one to ten with the
fifth rewritten as a dash form, the splitter still produces the block
numbered five (here the widened colon-dash pattern family of the main
battery already catches the dash form, so nothing is missing and the
block list is exactly one to ten). -/
theorem C6_gap_recovery :
    (∀ t : List Char, recovered_of t ≠ [] →
      missing_of t ≠ [] ∧ (missing_of t).length < 30) ∧
    split_block_numbers c6text = some [1, 2, 3, 4, 5, 6, 7, 8, 9, 10] := by
  constructor
  · intro t h
    simp only [recovered_of] at h
    split at h
    next hc =>
      rcases Bool.and_eq_true _ _ |>.mp hc with ⟨hc1, hc2⟩
      constructor
      · intro he
        rw [he] at hc1
        simp at hc1
      · exact of_decide_eq_true hc2
    next => exact absurd rfl h
  · decide

/-- C6 witness: a paper whose third numeral appears only in an em-dash
form has a non-empty recovery list, so the guard conclusions hold
there. -/
theorem C6_gap_recovery_witness :
    recovered_of emdashText ≠ [] ∧
    (missing_of emdashText ≠ [] ∧ (missing_of emdashText).length < 30) :=
  ⟨by decide, C6_gap_recovery.1 emdashText (by decide)⟩

/-- The number deduplication never emits a seen or zero number, and its
output numbers are pairwise distinct. -/
theorem dedupByNum_spec :
    ∀ (l : List BMatch) (seen : List Nat),
      (∀ n ∈ (dedupByNum seen l).map (fun m => digitsToNat m.bds),
        n ∉ seen ∧ 0 < n) ∧
      ((dedupByNum seen l).map (fun m => digitsToNat m.bds)).Nodup := by
  intro l
  induction l with
  | nil => intro seen; simp [dedupByNum]
  | cons m rest ih =>
    intro seen
    by_cases hc : digitsToNat m.bds ∉ seen ∧ 0 < digitsToNat m.bds
    · have ihq := ih (digitsToNat m.bds :: seen)
      constructor
      · intro n hn
        simp only [dedupByNum, if_pos hc, List.map_cons, List.mem_cons] at hn
        rcases hn with hn | hn
        · exact hn ▸ hc
        · have := ihq.1 n hn
          exact ⟨fun hs => this.1 (List.mem_cons_of_mem _ hs), this.2⟩
      · simp only [dedupByNum, if_pos hc, List.map_cons, List.nodup_cons]
        refine ⟨fun hm => ?_, ihq.2⟩
        exact ((ihq.1 _ hm).1) (List.mem_cons_self _ _)
    · simpa [dedupByNum, if_neg hc] using ih seen

/-- A materialized block either vanishes or carries the captured number
of its start. -/
theorem matOne_shape (text : List Char) (m : BMatch) (endPos : Nat) :
    matOne text (bToQP m) endPos = .ok [] ∨
    ∃ b, matOne text (bToQP m) endPos = .ok [b] ∧
      b.block_number = digitsToNat m.bds := by
  rw [matOne, bToQP]
  dsimp only
  split
  · left; rfl
  · split
    · left; rfl
    · split
      · left; rfl
      · split
        · left; rfl
        · right; exact ⟨_, rfl, rfl⟩

/-- The numbers of the materialized blocks form a sublist of the numbers
captured by the starts. -/
theorem materializeGo_sublist (text : List Char) :
    ∀ (ms : List BMatch) (bs : List QPBlock),
      materializeGo text (ms.map bToQP) = .ok bs →
      List.Sublist (bs.map QPBlock.block_number)
        (ms.map (fun m => digitsToNat m.bds)) := by
  intro ms
  induction ms with
  | nil =>
    intro bs h
    simp only [List.map_nil, materializeGo] at h
    cases h
    simp
  | cons m rest ih =>
    intro bs h
    cases rest with
    | nil =>
      simp only [List.map_cons, List.map_nil, materializeGo] at h
      rcases matOne_shape text m text.length with h0 | ⟨b, h0, hb⟩
      · rw [h0] at h
        cases h
        simp
      · rw [h0] at h
        cases h
        simp [hb]
    | cons m2 rest2 =>
      rw [List.map_cons, List.map_cons, materializeGo] at h
      cases h1 : matOne text (bToQP m) (bToQP m2).qstart with
      | error e => rw [h1] at h; cases h
      | ok b1 =>
        rw [h1] at h
        cases h2 : materializeGo text (bToQP m2 :: rest2.map bToQP) with
        | error e => rw [h2] at h; cases h
        | ok b2 =>
          rw [h2] at h
          cases h
          have ihs := ih b2 (by rw [List.map_cons]; exact h2)
          rcases matOne_shape text m (bToQP m2).qstart with h0 | ⟨b, h0, hb⟩
          · rw [h0] at h1
            cases h1
            rw [List.nil_append, List.map_cons]
            exact ihs.cons _
          · rw [h0] at h1
            cases h1
            rw [List.singleton_append, List.map_cons, List.map_cons, hb]
            exact ihs.cons₂ _

/-- A le-sorted list without duplicates is strictly increasing. -/
theorem pairwise_lt_of_le_nodup :
    ∀ l : List Nat, List.Pairwise (· ≤ ·) l → l.Nodup →
      List.Pairwise (· < ·) l := by
  intro l
  induction l with
  | nil => intro _ _; exact List.Pairwise.nil
  | cons a rest ih =>
    intro hle hnd
    rcases List.pairwise_cons.mp hle with ⟨hha, hta⟩
    rcases List.nodup_cons.mp hnd with ⟨hna, hnt⟩
    apply List.pairwise_cons.mpr
    refine ⟨fun b hb => ?_, ih hta hnt⟩
    exact lt_of_le_of_ne (hha b hb) (fun he => hna (he ▸ hb))

/-- C10: whenever the battery retains at least one candidate start and
the splitter returns a block list (gap recovery may instead raise, see
the error case of the embedding), the returned block numbers are
strictly increasing and at least one (zero-numbered candidates are
discarded by the deduplication). -/
theorem C10_blocks_strictly_increasing (t0 : List Char) (ns : List Nat)
    (hstarts : retained_starts (qp_preprocess t0) ≠ [])
    (hok : split_block_numbers t0 = some ns) :
    List.Pairwise (· < ·) ns ∧ ∀ n ∈ ns, 1 ≤ n := by
  have hne : (retained_starts (qp_preprocess t0)).isEmpty = false := by
    cases hr : retained_starts (qp_preprocess t0) with
    | nil => exact absurd hr hstarts
    | cons a l => rfl
  have hM : ∃ bs, materializeGo (qp_preprocess t0)
      ((retained_starts (qp_preprocess t0)).map bToQP) = .ok bs ∧
      ns = (sortBlocks bs).map QPBlock.block_number := by
    rw [split_block_numbers, split_blocks?, split_into_question_blocks_fixed] at hok
    simp only [hne, Bool.false_eq_true, if_false] at hok
    split at hok
    · split at hok
      · simp [Except.toOption] at hok
      · cases hmat : materializeGo (qp_preprocess t0)
            ((retained_starts (qp_preprocess t0)).map bToQP) with
        | error e =>
          rw [hmat] at hok
          simp [Except.map, Except.toOption] at hok
        | ok bs =>
          rw [hmat] at hok
          refine ⟨bs, rfl, ?_⟩
          simpa [Except.map, Except.toOption] using hok.symm
    · cases hmat : materializeGo (qp_preprocess t0)
          ((retained_starts (qp_preprocess t0)).map bToQP) with
      | error e =>
        rw [hmat] at hok
        simp [Except.map, Except.toOption] at hok
      | ok bs =>
        rw [hmat] at hok
        refine ⟨bs, rfl, ?_⟩
        simpa [Except.map, Except.toOption] using hok.symm
  obtain ⟨bs, hmat, hns⟩ := hM
  have hsub := materializeGo_sublist (qp_preprocess t0)
    (retained_starts (qp_preprocess t0)) bs hmat
  have hspec := dedupByNum_spec (fp_filter (qp_preprocess t0) (dedupByPos []
    (List.insertionSort (fun a b => a.bstart ≤ b.bstart)
      (batteryAll (qp_preprocess t0))))) []
  have hnodup : ((retained_starts (qp_preprocess t0)).map
      (fun m => digitsToNat m.bds)).Nodup := hspec.2
  have hpos : ∀ n ∈ (retained_starts (qp_preprocess t0)).map
      (fun m => digitsToNat m.bds), 0 < n := fun n hn => (hspec.1 n hn).2
  have hbsnodup : (bs.map QPBlock.block_number).Nodup := hnodup.sublist hsub
  haveI : IsTotal QPBlock (fun a b => a.block_number ≤ b.block_number) :=
    ⟨fun a b => Nat.le_total _ _⟩
  haveI : IsTrans QPBlock (fun a b => a.block_number ≤ b.block_number) :=
    ⟨fun _ _ _ h1 h2 => Nat.le_trans h1 h2⟩
  have hsorted := List.sorted_insertionSort
    (fun a b => a.block_number ≤ b.block_number) bs
  have hperm : List.Perm (sortBlocks bs) bs := List.perm_insertionSort _ _
  have hpermn : List.Perm ((sortBlocks bs).map QPBlock.block_number)
      (bs.map QPBlock.block_number) := hperm.map _
  have hnsnodup : ns.Nodup := by
    rw [hns]
    exact hpermn.nodup_iff.mpr hbsnodup
  have hnsle : List.Pairwise (· ≤ ·) ns := by
    rw [hns]
    exact List.pairwise_map.mpr hsorted
  refine ⟨pairwise_lt_of_le_nodup ns hnsle hnsnodup, ?_⟩
  intro n hn
  rw [hns] at hn
  have h1 : n ∈ bs.map QPBlock.block_number := hpermn.mem_iff.mp hn
  have h2 : n ∈ (retained_starts (qp_preprocess t0)).map
      (fun m => digitsToNat m.bds) := hsub.subset h1
  exact hpos n h2

/-- C10 witness: a two-question paper has retained starts and yields
strictly increasing block numbers one and two. -/
theorem C10_blocks_strictly_increasing_witness :
    (retained_starts (qp_preprocess c10text) ≠ [] ∧
      split_block_numbers c10text = some [1, 2]) ∧
    (List.Pairwise (· < ·) [1, 2] ∧ ∀ n ∈ [1, 2], 1 ≤ n) :=
  ⟨⟨by decide, by decide⟩,
    C10_blocks_strictly_increasing c10text [1, 2] (by decide) (by decide)⟩
